import Mathlib

/-!
Verification of the CyclicChamp MCP tool server's job-management layer and of
the tool wrappers in `src/server.py`.

The job manager itself (`jobs/manager.py`) is imported by the server but is not
among the repository's files; following the spec's §3–§7 it is modelled here
from the spec's words, while everything under `src/server.py` and
`scripts/backbone_sampling_params.py` is translated from the source.

Python integers are modelled as `Int` (`Nat` where the source guarantees
nonnegativity), Python `str(int)` / `int(str)` by the decimal rendering and
parsing functions below, dictionaries returned by the tools by dedicated
structures/inductives carrying the same fields, and floating-point parameters
(`min_pnear`) by their rendered text, since no component under verification
ever inspects their numeric value.
-/

namespace CyclicChamp

/-- Decimal digits of a natural number, most significant first; model of the
rendering Python's `str` applies to a nonnegative integer. -/
def natDigits (n : Nat) : List Char :=
  if n < 10 then [Char.ofNat (48 + n)]
  else natDigits (n / 10) ++ [Char.ofNat (48 + n % 10)]
decreasing_by omega

/-- Canonical decimal rendering of a natural number. -/
def natStr (n : Nat) : String :=
  String.mk (natDigits n)

/-- Canonical decimal rendering of an integer; model of Python's `str` on an
`int`. -/
def intStr (i : Int) : String :=
  if i < 0 then "-" ++ natStr i.natAbs else natStr i.natAbs

/-- A decimal digit character. -/
def isDigitChar (c : Char) : Bool :=
  48 ≤ c.toNat && c.toNat ≤ 57

/-- Horner accumulation of decimal digit characters. -/
def digitsToNat (acc : Nat) : List Char → Nat
  | [] => acc
  | c :: cs => digitsToNat (acc * 10 + (c.toNat - 48)) cs

/-- Model of Python's `int` conversion (as applied by `argparse` with
`type=int`) on a nonnegative canonical token: a non-empty all-digit string. -/
def parseNatToken (cs : List Char) : Option Nat :=
  if cs ≠ [] ∧ cs.all isDigitChar then some (digitsToNat 0 cs) else none

/-- Model of Python's `int` conversion allowing a leading minus sign. -/
def parseIntToken (cs : List Char) : Option Int :=
  match cs with
  | [] => none
  | c :: rest =>
    if c = '-' then (parseNatToken rest).map (fun n => -(n : Int))
    else (parseNatToken (c :: rest)).map (fun n => (n : Int))

/-- `int` conversion of a string token. -/
def parseIntStr (s : String) : Option Int :=
  parseIntToken s.data

theorem toNat_ofNat_digit : ∀ d, d < 10 → (Char.ofNat (48 + d)).toNat = 48 + d := by
  decide

theorem isDigitChar_ofNat_digit : ∀ d, d < 10 → isDigitChar (Char.ofNat (48 + d)) = true := by
  decide

theorem natDigits_ne_nil (n : Nat) : natDigits n ≠ [] := by
  rw [natDigits]
  split <;> simp

theorem natDigits_all_digit (n : Nat) : (natDigits n).all isDigitChar = true := by
  induction n using Nat.strong_induction_on with
  | _ n ih =>
    rw [natDigits]
    split
    · rename_i h
      simp only [List.all_cons, List.all_nil, Bool.and_true]
      exact isDigitChar_ofNat_digit n h
    · rename_i h
      simp only [List.all_append, List.all_cons, List.all_nil, Bool.and_true,
        Bool.and_eq_true]
      exact ⟨ih (n / 10) (by omega), isDigitChar_ofNat_digit _ (Nat.mod_lt _ (by omega))⟩

theorem digitsToNat_append (acc : Nat) (l₁ l₂ : List Char) :
    digitsToNat acc (l₁ ++ l₂) = digitsToNat (digitsToNat acc l₁) l₂ := by
  induction l₁ generalizing acc with
  | nil => rfl
  | cons c cs ih => exact ih _

theorem digitsToNat_singleton (acc : Nat) (c : Char) :
    digitsToNat acc [c] = acc * 10 + (c.toNat - 48) := rfl

theorem digitsToNat_natDigits (n acc : Nat) :
    digitsToNat acc (natDigits n) = acc * 10 ^ (natDigits n).length + n := by
  induction n using Nat.strong_induction_on generalizing acc with
  | _ n ih =>
    rw [natDigits]
    split
    · rename_i h
      rw [digitsToNat_singleton, toNat_ofNat_digit n h]
      simp only [List.length_cons, List.length_nil, pow_succ, pow_zero, one_mul]
      omega
    · rename_i h
      rw [digitsToNat_append, ih (n / 10) (by omega), digitsToNat_singleton,
        toNat_ofNat_digit _ (Nat.mod_lt _ (by omega))]
      simp only [List.length_append, List.length_cons, List.length_nil]
      rw [pow_succ]
      have hdm := Nat.div_add_mod n 10
      generalize (10 : Nat) ^ (natDigits (n / 10)).length = X
      ring_nf
      omega

theorem parseNatToken_natDigits (n : Nat) :
    parseNatToken (natDigits n) = some n := by
  rw [parseNatToken, if_pos ⟨natDigits_ne_nil n, natDigits_all_digit n⟩,
    digitsToNat_natDigits]
  simp

theorem natDigits_head_not_minus (n : Nat) :
    ∀ c cs, natDigits n = c :: cs → c ≠ '-' := by
  intro c cs h hc
  have hall := natDigits_all_digit n
  rw [h, hc] at hall
  simp [isDigitChar] at hall

theorem parseIntStr_natStr (n : Nat) : parseIntStr (natStr n) = some (n : Int) := by
  rw [parseIntStr, natStr]
  show parseIntToken (natDigits n) = some (n : Int)
  have hne := natDigits_ne_nil n
  rcases hd : natDigits n with _ | ⟨c, cs⟩
  · exact absurd hd hne
  · have hcm : c ≠ '-' := natDigits_head_not_minus n c cs hd
    have hp : parseNatToken (c :: cs) = some n := by
      rw [← hd]; exact parseNatToken_natDigits n
    have hstep : parseIntToken (c :: cs)
        = if c = '-' then (parseNatToken cs).map (fun m => -(m : Int))
          else (parseNatToken (c :: cs)).map (fun m => (m : Int)) := rfl
    rw [hstep, if_neg hcm, hp]
    rfl

theorem data_minus_append (s : String) : ("-" ++ s).data = '-' :: s.data := by
  rfl

theorem parseIntStr_intStr (i : Int) : parseIntStr (intStr i) = some i := by
  rw [intStr]
  split
  · rename_i h
    rw [parseIntStr, data_minus_append]
    show parseIntToken ('-' :: (natStr i.natAbs).data) = some i
    have hp : parseNatToken (natStr i.natAbs).data = some i.natAbs := by
      show parseNatToken (natDigits i.natAbs) = some i.natAbs
      exact parseNatToken_natDigits _
    have hstep : parseIntToken ('-' :: (natStr i.natAbs).data)
        = (parseNatToken (natStr i.natAbs).data).map (fun m => -(m : Int)) := by
      show (if '-' = '-' then (parseNatToken (natStr i.natAbs).data).map (fun m => -(m : Int))
        else (parseNatToken ('-' :: (natStr i.natAbs).data)).map (fun m => (m : Int)))
        = (parseNatToken (natStr i.natAbs).data).map (fun m => -(m : Int))
      rw [if_pos rfl]
    rw [hstep, hp]
    show some (-(i.natAbs : Int)) = some i
    congr 1
    omega
  · rename_i h
    rw [parseIntStr_natStr]
    congr 1
    omega

/-- Modelled from the spec: the lifecycle states of a job
(`pending → running → {completed | failed | cancelled}`); the job-manager
module (`jobs/manager.py`) is imported by `server.py` but is not among the
repository's files, so it is modelled from the spec throughout. -/
inductive JobStatus where
  | pending
  | running
  | completed
  | failed
  | cancelled
deriving DecidableEq

/-- Modelled from the spec: the three right-hand states of the lifecycle
diagram are terminal. -/
def JobStatus.isTerminal : JobStatus → Bool
  | .completed => true
  | .failed => true
  | .cancelled => true
  | _ => false

/-- Position of a status along the lifecycle: `pending` before `running`
before any terminal state. -/
def JobStatus.rank : JobStatus → Nat
  | .pending => 0
  | .running => 1
  | _ => 2

/-- Modelled from the spec: the permitted single transitions of the job state
machine — the diagram `pending → running → {completed | failed | cancelled}`
together with the transitions the operations perform on a job that has not
started running (cancellation of a pending job, spawn failure). -/
def JobStatus.step : JobStatus → JobStatus → Bool
  | .pending, .running => true
  | .pending, .failed => true
  | .pending, .cancelled => true
  | .running, .completed => true
  | .running, .failed => true
  | .running, .cancelled => true
  | _, _ => false

/-- Modelled from the spec: one tracked job record (§3 Data model). The result
payload is opaque to the manager and carried as its rendered text; the process
handle is owned exclusively by the manager and never exposed, so it has no
observable field here. -/
structure Job where
  job_id : Nat
  job_name : String
  script_path : String
  args : List (String × String)
  status : JobStatus
  created_at : Nat
  started_at : Option Nat
  completed_at : Option Nat
  log : List String
  result : Option String
  error : Option String
deriving DecidableEq

/-- Modelled from the spec: the manager owns the registry of jobs and the
allocator of fresh job identifiers. -/
structure JobManager where
  jobs : List Job
  counter : Nat
deriving DecidableEq

/-- Registry lookup by job identifier. -/
def JobManager.find (m : JobManager) (id : Nat) : Option Job :=
  m.jobs.find? (fun j => j.job_id == id)

/-- Pointwise update of the job with the given identifier. -/
def JobManager.update (m : JobManager) (id : Nat) (f : Job → Job) : JobManager :=
  { m with jobs := m.jobs.map (fun j => if j.job_id == id then f j else j) }

/-- Modelled from the spec: invariant tying a job's result payload and error
message to its status — exactly one of them is populated in a terminal state
(the error non-empty), neither in a non-terminal state. -/
def Job.WF (j : Job) : Prop :=
  (j.status = .completed → j.result.isSome ∧ j.error = none) ∧
  ((j.status = .failed ∨ j.status = .cancelled) →
    j.result = none ∧ j.error.isSome ∧ j.error ≠ some "") ∧
  ((j.status = .pending ∨ j.status = .running) → j.result = none ∧ j.error = none)

instance (j : Job) : Decidable j.WF := by
  unfold Job.WF
  infer_instance

def unknownJobMsg (id : Nat) : String := "Job not found: " ++ natStr id
def notReadyMsg : String := "Job not yet finished"
def alreadyFinishedMsg : String := "Job already finished"
def cancelReasonMsg : String := "Job cancelled by user"
def spawnFailMsg (path : String) : String :=
  "Executable not found or not invocable: " ++ path
def nonzeroExitMsg : String := "Process exited with non-zero exit code"
def unparsableResultMsg : String := "No parseable result found in job output"

/-- Result of `submit_job`: `{status: "submitted", job_id}` or
`{status: "error", error}`. -/
inductive SubmitResult where
  | submitted (job_id : Nat)
  | error (e : String)
deriving DecidableEq

/-- The job record created by a successful submission. -/
def newJob (id clock : Nat) (script_path : String) (args : List (String × String))
    (job_name : Option String) : Job :=
  { job_id := id
    job_name := job_name.getD ("job_" ++ natStr id)
    script_path := script_path
    args := args
    status := .running
    created_at := clock
    started_at := some clock
    completed_at := none
    log := []
    result := none
    error := none }

/-- Modelled from the spec: `submit_job` allocates a fresh identifier, creates
the job record and starts the worker without blocking; a spawn failure on a
non-invocable executable is reported synchronously as a structured error with
no job record created (the spec offers this design and the job-failed design
as equally acceptable; this model fixes the synchronous one). The set of
invocable executables and the clock are passed in as the environment. -/
def JobManager.submit_job (m : JobManager) (invocable : List String) (clock : Nat)
    (script_path : String) (args : List (String × String)) (job_name : Option String) :
    SubmitResult × JobManager :=
  if script_path ∈ invocable then
    (.submitted m.counter,
      { jobs := m.jobs ++ [newJob m.counter clock script_path args job_name]
        counter := m.counter + 1 })
  else
    (.error (spawnFailMsg script_path), m)

/-- The caller-visible snapshot of a job: status, timestamps, name, error. -/
structure StatusSnapshot where
  job_id : Nat
  job_name : String
  status : JobStatus
  created_at : Nat
  started_at : Option Nat
  completed_at : Option Nat
  error : Option String
deriving DecidableEq

inductive StatusResult where
  | ok (snapshot : StatusSnapshot)
  | error (e : String)
deriving DecidableEq

def Job.snapshot (j : Job) : StatusSnapshot :=
  { job_id := j.job_id
    job_name := j.job_name
    status := j.status
    created_at := j.created_at
    started_at := j.started_at
    completed_at := j.completed_at
    error := j.error }

/-- Modelled from the spec: `get_job_status` returns a snapshot of status and
timestamps, and surfaces an unknown id as a structured error, never a fault. -/
def JobManager.get_job_status (m : JobManager) (id : Nat) : StatusResult :=
  match m.find id with
  | some j => .ok j.snapshot
  | none => .error (unknownJobMsg id)

inductive ResultResponse where
  | success (result : String)
  | error (e : String)
deriving DecidableEq

/-- Modelled from the spec: `get_job_result` returns the stored payload of a
completed job, the stored error or cancellation reason of a failed/cancelled
job, and a structured "not ready" error on a pending/running job. -/
def JobManager.get_job_result (m : JobManager) (id : Nat) : ResultResponse :=
  match m.find id with
  | none => .error (unknownJobMsg id)
  | some j =>
    match j.status with
    | .completed => .success (j.result.getD "")
    | .failed => .error (j.error.getD "Unknown error")
    | .cancelled => .error (j.error.getD "Unknown error")
    | .pending => .error notReadyMsg
    | .running => .error notReadyMsg

inductive LogResponse where
  | ok (lines : List String) (total_lines : Nat)
  | error (e : String)
deriving DecidableEq

/-- The last `tail` lines of a log, or the whole log when `tail` is zero. -/
def tailLines (log : List String) (tail : Nat) : List String :=
  if tail = 0 then log else log.drop (log.length - tail)

/-- Modelled from the spec: `get_job_log` returns the last `tail` lines of the
captured log (all lines when `tail` is zero) together with the total count. -/
def JobManager.get_job_log (m : JobManager) (id : Nat) (tail : Nat) : LogResponse :=
  match m.find id with
  | some j => .ok (tailLines j.log tail) j.log.length
  | none => .error (unknownJobMsg id)

inductive CancelResult where
  | success (message : String)
  | error (e : String)
deriving DecidableEq

/-- The record change a cancellation applies to the cancelled job. -/
def cancelUpdate (clock : Nat) (j : Job) : Job :=
  { j with
    status := .cancelled
    completed_at := some clock
    result := none
    error := some cancelReasonMsg }

/-- Modelled from the spec: `cancel_job` terminates a pending/running job,
marking it cancelled with a recorded reason; on an already-terminal job it is
a structured no-op error, and on an unknown id a structured error. -/
def JobManager.cancel_job (m : JobManager) (clock : Nat) (id : Nat) :
    CancelResult × JobManager :=
  match m.find id with
  | none => (.error (unknownJobMsg id), m)
  | some j =>
    if j.status.isTerminal then
      (.error alreadyFinishedMsg, m)
    else
      (.success "Job cancelled", m.update id (cancelUpdate clock))

/-- One line of a job listing: identity, name, status and timestamps only —
no log buffer, no result payload, no process handle. -/
structure JobSummary where
  job_id : Nat
  job_name : String
  status : JobStatus
  created_at : Nat
  started_at : Option Nat
  completed_at : Option Nat
deriving DecidableEq

def Job.summary (j : Job) : JobSummary :=
  { job_id := j.job_id
    job_name := j.job_name
    status := j.status
    created_at := j.created_at
    started_at := j.started_at
    completed_at := j.completed_at }

structure ListJobsResult where
  jobs : List JobSummary
  total : Nat
deriving DecidableEq

/-- Modelled from the spec: `list_jobs` returns summaries of all registry
jobs, optionally filtered to a single status, with their count. -/
def JobManager.list_jobs (m : JobManager) (status : Option JobStatus) : ListJobsResult :=
  let selected :=
    match status with
    | none => m.jobs
    | some s => m.jobs.filter (fun j => j.status == s)
  { jobs := selected.map Job.summary, total := selected.length }

/-- The record change a recorded process exit applies to a running job:
completed with the parsed payload on a success exit, failed otherwise (a
success exit whose output holds no parsable payload is also failed); a job
that is no longer running is left untouched. -/
def finishUpdate (clock : Nat) (exit_ok : Bool) (payload : Option String) (j : Job) :
    Job :=
  if j.status = .running then
    match exit_ok, payload with
    | true, some p =>
      { j with status := .completed, completed_at := some clock,
               result := some p, error := none }
    | true, none =>
      { j with status := .failed, completed_at := some clock,
               result := none, error := some unparsableResultMsg }
    | false, _ =>
      { j with status := .failed, completed_at := some clock,
               result := none, error := some nonzeroExitMsg }
  else j

/-- Modelled from the spec: the background watcher records the exit of the
worker process of a running job. -/
def JobManager.finish_job (m : JobManager) (clock : Nat) (id : Nat)
    (exit_ok : Bool) (payload : Option String) : JobManager :=
  m.update id (finishUpdate clock exit_ok payload)

/-- The record change a drained output line applies to a running job; the log
of a job in any other state is frozen. -/
def appendLogUpdate (line : String) (j : Job) : Job :=
  if j.status = .running then { j with log := j.log ++ [line] } else j

/-- Modelled from the spec: the watcher appends one produced output line to
the log buffer of a running job. -/
def JobManager.append_log (m : JobManager) (id : Nat) (line : String) : JobManager :=
  m.update id (appendLogUpdate line)

/-- Modelled from the spec: the manager's observable transitions — a
submission, a cancellation, a recorded process exit, or a drained log line. -/
inductive MStep : JobManager → JobManager → Prop where
  | submit (m : JobManager) (invocable : List String) (clock : Nat)
      (script_path : String) (args : List (String × String)) (job_name : Option String) :
      MStep m (m.submit_job invocable clock script_path args job_name).2
  | cancel (m : JobManager) (clock : Nat) (id : Nat) :
      MStep m (m.cancel_job clock id).2
  | finish (m : JobManager) (clock : Nat) (id : Nat) (exit_ok : Bool)
      (payload : Option String) :
      MStep m (m.finish_job clock id exit_ok payload)
  | log (m : JobManager) (id : Nat) (line : String) :
      MStep m (m.append_log id line)

/-- Modelled from the spec: the command line the manager derives from the
`arguments` mapping — each key `k` becomes the flag `--k` followed by its
value, an empty-string value denoting a bare boolean flag. (The derivation
itself lives in the missing `jobs/manager.py`.) -/
def buildCommandLine (args : List (String × String)) : List String :=
  args.flatMap (fun kv => if kv.2 = "" then ["--" ++ kv.1] else ["--" ++ kv.1, kv.2])

/-- `SCRIPT_DIR`-relative path of `pnear_analysis.py`, as `server.py` builds it. -/
def pnearScriptPath : String := "scripts/pnear_analysis.py"

/-- `SCRIPT_DIR`-relative path of `sequence_analysis.py`. -/
def sequenceScriptPath : String := "scripts/sequence_analysis.py"

/-- `SCRIPT_DIR`-relative path of `backbone_sampling_params.py`. -/
def backboneScriptPath : String := "scripts/backbone_sampling_params.py"

/-- Filename of a path without its directory part: model of
`pathlib.Path(p).name`. -/
def basename (p : String) : String :=
  (p.splitOn "/").getLastD ""

/-- Filename without its last extension: model of `pathlib.Path(p).stem` for
ordinary names (the pathlib special case of a bare leading-dot name is not
reached by any claim). -/
def stem (p : String) : String :=
  let b := basename p
  match b.splitOn "." with
  | [] => b
  | [_] => b
  | parts => String.intercalate "." parts.dropLast

/-- `[(k, v)]` when the optional value is present and truthy: the shape of
`server.py`'s `if x: args[k] = x` plumbing, where Python treats an absent or
empty string as false. -/
def optArg (k : String) (v : Option String) : List (String × String) :=
  match v with
  | some x => if x = "" then [] else [(k, x)]
  | none => []

/-- `[(k, v)]` when the optional value is present: the shape of `server.py`'s
`if x is not None: args[k] = x` plumbing for numeric parameters. -/
def optNumArg (k : String) (v : Option String) : List (String × String) :=
  match v with
  | some x => [(k, x)]
  | none => []

/-- The shape of `server.py`'s `f"…{x}…" if x else None` expressions: apply
the formatting only to a present, truthy (non-empty) string. -/
def truthyMap (v : Option String) (f : String → String) : Option String :=
  match v with
  | some x => if x = "" then none else some (f x)
  | none => none

/-- The shape of Python's `x or d` on an optional string: `d` when `x` is
absent or empty. -/
def orDefault (v : Option String) (d : String) : String :=
  match v with
  | some x => if x = "" then d else x
  | none => d

/-- The shape of `server.py`'s `f"{x}_…" if x else d` job-name expressions. -/
def truthyName (v : Option String) (f : String → String) (d : String) : String :=
  match v with
  | some x => if x = "" then d else f x
  | none => d

namespace server

/-- Translated from `server.py` lines 29–40: the `get_job_status` tool
delegates to the job manager. -/
def get_job_status (m : JobManager) (job_id : Nat) : StatusResult :=
  m.get_job_status job_id

/-- Translated from `server.py` lines 42–53: the `get_job_result` tool
delegates to the job manager. -/
def get_job_result (m : JobManager) (job_id : Nat) : ResultResponse :=
  m.get_job_result job_id

/-- Translated from `server.py` lines 55–67: the `get_job_log` tool delegates
to the job manager, defaulting `tail` to 50 when the caller omits it. -/
def get_job_log (m : JobManager) (job_id : Nat) (tail : Nat := 50) : LogResponse :=
  m.get_job_log job_id tail

/-- Translated from `server.py` lines 69–80: the `cancel_job` tool delegates
to the job manager. -/
def cancel_job (m : JobManager) (clock : Nat) (job_id : Nat) :
    CancelResult × JobManager :=
  m.cancel_job clock job_id

/-- Translated from `server.py` lines 82–93: the `list_jobs` tool delegates
to the job manager. -/
def list_jobs (m : JobManager) (status : Option JobStatus) : ListJobsResult :=
  m.list_jobs status

/-- The argument mapping `submit_pnear_analysis` builds (`server.py` lines
338–344): `input`, then the truthy optionals `output-dir` and `config` and
`min-pnear` when given; `min_pnear` carried as its rendered text. -/
def pnearArgs (input_file : String)
    (output_dir min_pnear config_file : Option String) : List (String × String) :=
  [("input", input_file)]
    ++ optArg "output-dir" output_dir
    ++ optNumArg "min-pnear" min_pnear
    ++ optArg "config" config_file

/-- Translated from `server.py` lines 309–350: `submit_pnear_analysis` builds
the argument mapping and submits `pnear_analysis.py`. -/
def submit_pnear_analysis (m : JobManager) (invocable : List String) (clock : Nat)
    (input_file : String) (output_dir : Option String) (min_pnear : Option String)
    (config_file : Option String) (job_name : Option String) :
    SubmitResult × JobManager :=
  m.submit_job invocable clock pnearScriptPath
    (pnearArgs input_file output_dir min_pnear config_file)
    (some (orDefault job_name ("pnear_analysis_" ++ stem input_file)))

/-- The argument mapping `submit_sequence_analysis` builds (`server.py` lines
380–388): `input`, the truthy optional `output-dir`, the bare `stable-only`
flag, `min-pnear` when given, and the truthy optional `config`. -/
def sequenceArgs (input_file : String) (output_dir : Option String)
    (stable_only : Bool) (min_pnear config_file : Option String) :
    List (String × String) :=
  [("input", input_file)]
    ++ optArg "output-dir" output_dir
    ++ (if stable_only then [("stable-only", "")] else [])
    ++ optNumArg "min-pnear" min_pnear
    ++ optArg "config" config_file

/-- Translated from `server.py` lines 352–394: `submit_sequence_analysis`
builds the argument mapping and submits `sequence_analysis.py`. -/
def submit_sequence_analysis (m : JobManager) (invocable : List String)
    (clock : Nat) (input_file : String) (output_dir : Option String)
    (stable_only : Bool) (min_pnear : Option String) (config_file : Option String)
    (job_name : Option String) : SubmitResult × JobManager :=
  m.submit_job invocable clock sequenceScriptPath
    (sequenceArgs input_file output_dir stable_only min_pnear config_file)
    (some (orDefault job_name ("sequence_analysis_" ++ stem input_file)))

/-- The sizes `server.py` accepts, its `valid_sizes = [7, 15, 20, 24]`. -/
def valid_sizes : List Int := [7, 15, 20, 24]

/-- The error message `server.py` formats for an invalid peptide size. -/
def invalidSizeMsg (peptide_size : Int) : String :=
  "Invalid peptide size " ++ intStr peptide_size ++ ". Must be one of: [7, 15, 20, 24]"

/-- The argument mapping `submit_backbone_parameter_generation` builds
(`server.py` lines 433–441): `size`, then the truthy optionals `output-dir`
and `config`, the bare `optimize` flag, and `num-combinations` when given;
integer values rendered to their decimal text. -/
def backboneArgs (peptide_size : Int) (output_dir : Option String) (optimize : Bool)
    (num_combinations : Option Int) (config_file : Option String) :
    List (String × String) :=
  [("size", intStr peptide_size)]
    ++ optArg "output-dir" output_dir
    ++ (if optimize then [("optimize", "")] else [])
    ++ optNumArg "num-combinations" (num_combinations.map intStr)
    ++ optArg "config" config_file

/-- Translated from `server.py` lines 396–447: `submit_backbone_parameter_generation`
validates the peptide size first (returning a structured error on failure,
before any job is created), then builds the argument mapping and submits
`backbone_sampling_params.py`. -/
def submit_backbone_parameter_generation (m : JobManager) (invocable : List String)
    (clock : Nat) (peptide_size : Int) (output_dir : Option String) (optimize : Bool)
    (num_combinations : Option Int) (config_file : Option String)
    (job_name : Option String) : SubmitResult × JobManager :=
  if peptide_size ∈ valid_sizes then
    m.submit_job invocable clock backboneScriptPath
      (backboneArgs peptide_size output_dir optimize num_combinations config_file)
      (some (orDefault job_name ("backbone_params_" ++ intStr peptide_size ++ "res")))
  else
    (.error (invalidSizeMsg peptide_size), m)

/-- Result of a synchronous tool call: `{status: "success", ...}` or
`{status: "error", error}`. -/
inductive ToolResult where
  | success (payload : String)
  | error (e : String)
deriving DecidableEq

/-- Translated from `server.py` lines 233–303: the synchronous
`generate_backbone_parameters` tool validates the peptide size, returning a
structured error on failure, and otherwise defers to the external
`run_backbone_sampling_params` (passed here as `run`, which also absorbs the
config plumbing and the exception-to-error conversion around the call). -/
def generate_backbone_parameters (run : Int → ToolResult) (peptide_size : Int) :
    ToolResult :=
  if peptide_size ∈ valid_sizes then run peptide_size
  else .error (invalidSizeMsg peptide_size)

/-- The error message `server.py` formats when a sweep lists invalid sizes;
the f-string renders the list Python-style, e.g. `[15, 99]`. -/
def invalidSweepMsg (invalid : List Int) : String :=
  "Invalid peptide sizes [" ++ String.intercalate ", " (invalid.map intStr)
    ++ "]. Must be from: [7, 15, 20, 24]"

/-- Result of `submit_peptide_size_parameter_sweep`. -/
inductive SweepResult where
  | sweep_submitted (sweep_id : String) (job_ids : List Nat)
      (peptide_sizes : List Int) (total_jobs : Nat) (message : String)
  | error (e : String)
deriving DecidableEq

/-- One step of the sweep loop: submit one size, collect the job id when the
submission reports `submitted`. -/
def sweepStep (invocable : List String) (clock : Nat) (output_dir : Option String)
    (optimize_all : Bool) (num_combinations : Option Int) (config_file : Option String)
    (job_name : Option String) (acc : List Nat × JobManager) (size : Int) :
    List Nat × JobManager :=
  let r := submit_backbone_parameter_generation acc.2 invocable clock size
    (truthyMap output_dir (fun d => d ++ "/" ++ intStr size ++ "res")) optimize_all
    num_combinations config_file
    (some (truthyName job_name (fun n => n ++ "_" ++ intStr size ++ "res")
      ("params_" ++ intStr size ++ "res")))
  match r.1 with
  | .submitted id => (acc.1 ++ [id], r.2)
  | .error _ => (acc.1, r.2)

/-- Translated from `server.py` lines 505–565: the sweep defaults to all four
sizes, validates every requested size up front — rejecting the whole request
with no job submitted when any is invalid — and otherwise submits one
backbone-parameter job per size, collecting the ids of the successful
submissions. -/
def submit_peptide_size_parameter_sweep (m : JobManager) (invocable : List String)
    (clock : Nat) (peptide_sizes : Option (List Int)) (output_dir : Option String)
    (optimize_all : Bool) (num_combinations : Option Int) (config_file : Option String)
    (job_name : Option String) : SweepResult × JobManager :=
  let sizes := peptide_sizes.getD [7, 15, 20, 24]
  let invalid := sizes.filter (fun s => !(decide (s ∈ valid_sizes)))
  if invalid ≠ [] then
    (.error (invalidSweepMsg invalid), m)
  else
    let out := sizes.foldl
      (sweepStep invocable clock output_dir optimize_all num_combinations
        config_file job_name) ([], m)
    (.sweep_submitted ("param_sweep_" ++ natStr sizes.length ++ "_sizes") out.1
      sizes out.1.length
      ("Submitted " ++ natStr out.1.length ++ " parameter generation jobs"),
      out.2)

/-- Result of `submit_batch_pnear_analysis`: the dictionary the tool always
returns, with its fixed `status` field. -/
structure BatchResult where
  status : String
  batch_id : String
  job_ids : List Nat
  total_jobs : Nat
  message : String
deriving DecidableEq

/-- One step of the batch loop: submit one input file (with the derived
output directory and job name), collect the job id when the submission
reports `submitted`. -/
def batchStep (invocable : List String) (clock : Nat) (output_base_dir : Option String)
    (min_pnear : Option String) (config_file : Option String) (job_name : Option String)
    (acc : List Nat × JobManager) (p : Nat × String) : List Nat × JobManager :=
  let r := submit_pnear_analysis acc.2 invocable clock p.2
    (truthyMap output_base_dir (fun b => b ++ "/" ++ stem p.2)) min_pnear config_file
    (some (truthyName job_name (fun n => n ++ "_" ++ stem p.2)
      ("batch_pnear_" ++ natStr (p.1 + 1))))
  match r.1 with
  | .submitted id => (acc.1 ++ [id], r.2)
  | .error _ => (acc.1, r.2)

/-- Translated from `server.py` lines 453–503: `submit_batch_pnear_analysis`
submits one `pnear_analysis` job per input file, collects the ids of the
submissions that reported `submitted`, and always returns a
`batch_submitted` dictionary whose `total_jobs` is the number of collected
ids. -/
def submit_batch_pnear_analysis (m : JobManager) (invocable : List String)
    (clock : Nat) (input_files : List String) (output_base_dir : Option String)
    (min_pnear : Option String) (config_file : Option String)
    (job_name : Option String) : BatchResult × JobManager :=
  let out := input_files.enum.foldl
    (batchStep invocable clock output_base_dir min_pnear config_file job_name)
    ([], m)
  ({ status := "batch_submitted"
     batch_id := "batch_" ++ natStr input_files.length ++ "_files"
     job_ids := out.1
     total_jobs := out.1.length
     message := "Submitted " ++ natStr out.1.length
       ++ " P_near analysis jobs. Use list_jobs() to monitor all." },
    out.2)

end server

/-- The sizes `backbone_sampling_params.py` supports
(`SUPPORTED_SIZES = [7, 15, 20, 24]`). -/
def SUPPORTED_SIZES : List Int := [7, 15, 20, 24]

/-- The fractional alternative of `argparse`'s negative-number matcher
(`-\\d*\\.\\d+` after the sign): optional digits, one decimal point, at least
one digit after it. -/
def negNumberFracTail : List Char → Bool
  | [] => false
  | c :: rest =>
    if c = '.' then !rest.isEmpty && rest.all isDigitChar
    else isDigitChar c && negNumberFracTail rest

/-- `argparse`'s `_negative_number_matcher` (`-\\d+` or `-\\d*\\.\\d+`). -/
def isNegativeNumberToken : List Char → Bool
  | '-' :: rest => (!rest.isEmpty && rest.all isDigitChar) || negNumberFracTail rest
  | _ => false

/-- Translated from `argparse`'s `_parse_optional` classification of a token,
which decides whether it may stand as an option's value: the token is treated
as an option — and an option in value position aborts parsing with "expected
one argument" — exactly when it starts with `-`, is longer than a bare `-`,
is not a plain negative number (none of these scripts define
negative-number-like option strings) and contains no space. -/
def looksLikeOptionTok : List Char → Bool
  | [] => false
  | c :: rest =>
    c == '-' && !rest.isEmpty && !isNegativeNumberToken (c :: rest)
      && !(c :: rest).contains ' '

/-- Option-likeness of a string token, per `argparse`'s classification. -/
def looksLikeOption (s : String) : Bool :=
  looksLikeOptionTok s.data

/-- Model of Python's `float` conversion (as applied by `argparse` with
`type=float`) on the tokens the server renders: an optional sign, then digits
with at most one decimal point and at least one digit (exponents, `inf`,
`nan` and underscores are not modelled; no rendered `min_pnear` uses them). -/
def isFloatToken (s : String) : Bool :=
  let cs :=
    match s.data with
    | '-' :: rest => rest
    | '+' :: rest => rest
    | other => other
  let intPart := cs.takeWhile isDigitChar
  match cs.dropWhile isDigitChar with
  | [] => !cs.isEmpty
  | '.' :: frac => frac.all isDigitChar && (!intPart.isEmpty || !frac.isEmpty)
  | _ => false

/-- The options of `backbone_sampling_params.py`'s `argparse` interface, with
the parser's defaults (lines 438–451 of the script). -/
structure BackboneCli where
  size : Option Int := none
  output_dir : Option String := none
  config : Option String := none
  optimize : Bool := false
  num_combinations : Int := 20
  show_plots : Bool := false
deriving DecidableEq

/-- Translated from `backbone_sampling_params.py` `main` (lines 438–451): the
token-level behaviour of its `argparse` parser on full option names —
`--size`/`-s` takes an integer restricted to the supported sizes,
`--output-dir`/`-o` and `--config`/`-c` take a value, `--optimize` and
`--show-plots` are bare flags, `--num-combinations`/`-n` takes an integer; a
value position refuses option-like tokens (`argparse`'s "expected one
argument"), and any unknown token is rejected. `argparse`'s unambiguous
prefix abbreviations of long options are not modelled — the derived command
lines only ever contain full option names, so the model is stricter, never
more permissive, than the script there. -/
def parseBackboneTokens : List String → BackboneCli → Option BackboneCli
  | [], acc => some acc
  | [tok], acc =>
    if tok = "--optimize" then some { acc with optimize := true }
    else if tok = "--show-plots" then some { acc with show_plots := true }
    else none
  | tok :: v :: rest, acc =>
    if tok = "--optimize" then
      parseBackboneTokens (v :: rest) { acc with optimize := true }
    else if tok = "--show-plots" then
      parseBackboneTokens (v :: rest) { acc with show_plots := true }
    else if tok = "--size" ∨ tok = "-s" then
      if looksLikeOption v then none
      else
        match parseIntStr v with
        | some n =>
          if n ∈ SUPPORTED_SIZES then parseBackboneTokens rest { acc with size := some n }
          else none
        | none => none
    else if tok = "--output-dir" ∨ tok = "-o" then
      if looksLikeOption v then none
      else parseBackboneTokens rest { acc with output_dir := some v }
    else if tok = "--config" ∨ tok = "-c" then
      if looksLikeOption v then none
      else parseBackboneTokens rest { acc with config := some v }
    else if tok = "--num-combinations" ∨ tok = "-n" then
      if looksLikeOption v then none
      else
        match parseIntStr v with
        | some n => parseBackboneTokens rest { acc with num_combinations := n }
        | none => none
    else
      none

/-- Whether `backbone_sampling_params.py`'s parser accepts a command line:
every token consumed and the required `--size` present. -/
def backboneCliAccepts (tokens : List String) : Bool :=
  match parseBackboneTokens tokens {} with
  | some cli => cli.size.isSome
  | none => false

/-- The options of `pnear_analysis.py`'s `argparse` interface (lines 246–251
of the script); `min_pnear` stores the accepted raw token, its numeric value
never being inspected here. -/
structure PnearCli where
  input : Option String := none
  output_dir : Option String := none
  config : Option String := none
  min_pnear : Option String := none
  show_plots : Bool := false
deriving DecidableEq

/-- Translated from `pnear_analysis.py` `main` (lines 241–253), under the
same modelling conventions as `parseBackboneTokens`: `--input`/`-i`,
`--output-dir`/`-o` and `--config`/`-c` take a value, `--min-pnear`/`-p`
takes a float token, `--show-plots` is a bare flag. -/
def parsePnearTokens : List String → PnearCli → Option PnearCli
  | [], acc => some acc
  | [tok], acc =>
    if tok = "--show-plots" then some { acc with show_plots := true }
    else none
  | tok :: v :: rest, acc =>
    if tok = "--show-plots" then
      parsePnearTokens (v :: rest) { acc with show_plots := true }
    else if tok = "--input" ∨ tok = "-i" then
      if looksLikeOption v then none
      else parsePnearTokens rest { acc with input := some v }
    else if tok = "--output-dir" ∨ tok = "-o" then
      if looksLikeOption v then none
      else parsePnearTokens rest { acc with output_dir := some v }
    else if tok = "--config" ∨ tok = "-c" then
      if looksLikeOption v then none
      else parsePnearTokens rest { acc with config := some v }
    else if tok = "--min-pnear" ∨ tok = "-p" then
      if looksLikeOption v then none
      else if isFloatToken v then parsePnearTokens rest { acc with min_pnear := some v }
      else none
    else
      none

/-- Whether `pnear_analysis.py`'s parser accepts a command line: every token
consumed and the required `--input` present. -/
def pnearCliAccepts (tokens : List String) : Bool :=
  match parsePnearTokens tokens {} with
  | some cli => cli.input.isSome
  | none => false

/-- The options of `sequence_analysis.py`'s `argparse` interface (lines
362–370 of the script). -/
structure SequenceCli where
  input : Option String := none
  output_dir : Option String := none
  config : Option String := none
  stable_only : Bool := false
  min_pnear : Option String := none
  show_plots : Bool := false
deriving DecidableEq

/-- Translated from `sequence_analysis.py` `main` (lines 357–370), under the
same modelling conventions as `parseBackboneTokens`: as the pnear parser,
plus the bare `--stable-only` flag. -/
def parseSequenceTokens : List String → SequenceCli → Option SequenceCli
  | [], acc => some acc
  | [tok], acc =>
    if tok = "--stable-only" then some { acc with stable_only := true }
    else if tok = "--show-plots" then some { acc with show_plots := true }
    else none
  | tok :: v :: rest, acc =>
    if tok = "--stable-only" then
      parseSequenceTokens (v :: rest) { acc with stable_only := true }
    else if tok = "--show-plots" then
      parseSequenceTokens (v :: rest) { acc with show_plots := true }
    else if tok = "--input" ∨ tok = "-i" then
      if looksLikeOption v then none
      else parseSequenceTokens rest { acc with input := some v }
    else if tok = "--output-dir" ∨ tok = "-o" then
      if looksLikeOption v then none
      else parseSequenceTokens rest { acc with output_dir := some v }
    else if tok = "--config" ∨ tok = "-c" then
      if looksLikeOption v then none
      else parseSequenceTokens rest { acc with config := some v }
    else if tok = "--min-pnear" ∨ tok = "-p" then
      if looksLikeOption v then none
      else if isFloatToken v then parseSequenceTokens rest { acc with min_pnear := some v }
      else none
    else
      none

/-- Whether `sequence_analysis.py`'s parser accepts a command line: every
token consumed and the required `--input` present. -/
def sequenceCliAccepts (tokens : List String) : Bool :=
  match parseSequenceTokens tokens {} with
  | some cli => cli.input.isSome
  | none => false

/-! Registry helper lemmas. -/

/-- Identifier discipline of the registry: every registered id is below the
allocator counter (true of the empty manager and preserved by every
operation). -/
def JobManager.IdsBelowCounter (m : JobManager) : Prop :=
  ∀ j ∈ m.jobs, j.job_id < m.counter

theorem JobManager.find_update (m : JobManager) (id id' : Nat) (f : Job → Job)
    (hf : ∀ j, (f j).job_id = j.job_id) :
    (m.update id f).find id' =
      (m.find id').map (fun j => if j.job_id == id then f j else j) := by
  show ((m.jobs.map fun j => if j.job_id == id then f j else j).find?
        fun j => j.job_id == id')
      = (m.jobs.find? fun j => j.job_id == id').map
        fun j => if j.job_id == id then f j else j
  rw [List.find?_map]
  have hpg : ((fun j : Job => j.job_id == id') ∘ fun j => if j.job_id == id then f j else j)
      = fun j : Job => j.job_id == id' := by
    funext j
    simp only [Function.comp]
    split
    · rw [hf]
    · rfl
  rw [hpg]

theorem JobManager.find_submit_old (m : JobManager) (invocable : List String)
    (clock : Nat) (path : String) (args : List (String × String))
    (name : Option String) (id : Nat) (j : Job) (h : m.find id = some j) :
    ((m.submit_job invocable clock path args name).2).find id = some j := by
  unfold JobManager.submit_job
  split
  · show ((m.jobs ++ [newJob m.counter clock path args name]).find?
        fun j' => j'.job_id == id) = some j
    have h' : (List.find? (fun j' => j'.job_id == id) m.jobs) = some j := h
    rw [List.find?_append, h']
    rfl
  · exact h

theorem JobManager.find_submit_new (m : JobManager) (invocable : List String)
    (clock : Nat) (path : String) (args : List (String × String))
    (name : Option String) (hpath : path ∈ invocable) (hc : m.IdsBelowCounter) :
    ((m.submit_job invocable clock path args name).2).find m.counter
      = some (newJob m.counter clock path args name) := by
  unfold JobManager.submit_job
  rw [if_pos hpath]
  show ((m.jobs ++ [newJob m.counter clock path args name]).find?
      fun j' => j'.job_id == m.counter) = some (newJob m.counter clock path args name)
  rw [List.find?_append]
  have hnone : (m.jobs.find? fun j' => j'.job_id == m.counter) = none := by
    rw [List.find?_eq_none]
    intro x hx
    simp only [beq_iff_eq]
    exact Nat.ne_of_lt (hc x hx)
  rw [hnone]
  show ([newJob m.counter clock path args name].find?
      fun j' => j'.job_id == m.counter) = some (newJob m.counter clock path args name)
  rw [List.find?_cons_of_pos]
  show ((newJob m.counter clock path args name).job_id == m.counter) = true
  simp [newJob]

theorem tailLines_nil (t : Nat) : tailLines [] t = [] := by
  unfold tailLines
  split <;> simp

/-! String helper lemmas. -/

theorem natStr_ne_empty (n : Nat) : natStr n ≠ "" := by
  rw [natStr]
  intro h
  apply natDigits_ne_nil n
  have := congrArg String.data h
  simpa using this

theorem intStr_ne_empty (i : Int) : intStr i ≠ "" := by
  rw [intStr]
  split
  · intro h
    have := congrArg String.data h
    rw [data_minus_append] at this
    simp at this
  · exact natStr_ne_empty _

theorem invalidSizeMsg_prefix (i : Int) :
    ∃ suffix, server.invalidSizeMsg i = "Invalid peptide size" ++ suffix := by
  refine ⟨" " ++ (intStr i ++ ". Must be one of: [7, 15, 20, 24]"), ?_⟩
  unfold server.invalidSizeMsg
  have h : "Invalid peptide size " = "Invalid peptide size" ++ " " := rfl
  rw [h]
  simp only [String.append_assoc]

theorem JobManager.find_some_id (m : JobManager) (id : Nat) (j : Job)
    (h : m.find id = some j) : j.job_id = id := by
  have := List.find?_some h
  simpa using this

theorem JobManager.cancel_job_none (m : JobManager) (clock id : Nat)
    (h : m.find id = none) :
    m.cancel_job clock id = (.error (unknownJobMsg id), m) := by
  unfold JobManager.cancel_job
  rw [h]

theorem JobManager.cancel_job_known (m : JobManager) (clock id : Nat) (j : Job)
    (h : m.find id = some j) :
    m.cancel_job clock id =
      if j.status.isTerminal then (.error alreadyFinishedMsg, m)
      else (.success "Job cancelled", m.update id (cancelUpdate clock)) := by
  unfold JobManager.cancel_job
  rw [h]

theorem step_rank_lt : ∀ s t, JobStatus.step s t = true → s.rank < t.rank := by
  intro s t
  cases s <;> cases t <;> decide

theorem terminal_no_step : ∀ s t, s.isTerminal = true → JobStatus.step s t = false := by
  intro s t
  cases s <;> cases t <;> decide

theorem step_cancelled_of_not_terminal :
    ∀ s, s.isTerminal = false → JobStatus.step s JobStatus.cancelled = true := by
  intro s
  cases s <;> decide

theorem terminal_not_running :
    ∀ s : JobStatus, s.isTerminal = true → ¬(s = .running) := by
  intro s
  cases s <;> decide

theorem cancelUpdate_job_id (clock : Nat) (j : Job) :
    (cancelUpdate clock j).job_id = j.job_id := rfl

theorem finishUpdate_job_id (clock : Nat) (exit_ok : Bool) (payload : Option String)
    (j : Job) : (finishUpdate clock exit_ok payload j).job_id = j.job_id := by
  unfold finishUpdate
  rcases exit_ok with _ | _ <;> rcases payload with _ | p <;> split <;> rfl

theorem appendLogUpdate_job_id (line : String) (j : Job) :
    (appendLogUpdate line j).job_id = j.job_id := by
  unfold appendLogUpdate
  split <;> rfl

theorem finishUpdate_status_step (clock : Nat) (exit_ok : Bool) (payload : Option String)
    (j : Job) (hrun : j.status = .running) :
    JobStatus.step j.status (finishUpdate clock exit_ok payload j).status = true := by
  unfold finishUpdate
  rw [if_pos hrun, hrun]
  rcases exit_ok with _ | _ <;> rcases payload with _ | p <;> rfl

theorem finishUpdate_not_running (clock : Nat) (exit_ok : Bool) (payload : Option String)
    (j : Job) (h : ¬(j.status = .running)) : finishUpdate clock exit_ok payload j = j := by
  unfold finishUpdate
  rw [if_neg h]

theorem appendLogUpdate_status (line : String) (j : Job) :
    (appendLogUpdate line j).status = j.status := by
  unfold appendLogUpdate
  split <;> rfl

theorem appendLogUpdate_not_running (line : String) (j : Job)
    (h : ¬(j.status = .running)) : appendLogUpdate line j = j := by
  unfold appendLogUpdate
  rw [if_neg h]

/-- One manager operation never moves a registered job backward: the looked-up
job either keeps its status or takes a permitted transition, and a job already
terminal is untouched. -/
theorem mstep_find {m m' : JobManager} (h : MStep m m') (id : Nat) (j : Job)
    (hfind : m.find id = some j) :
    ∃ j', m'.find id = some j' ∧
      (j'.status = j.status ∨ JobStatus.step j.status j'.status = true) ∧
      (j.status.isTerminal = true → j' = j) := by
  have hjid : j.job_id = id := JobManager.find_some_id m id j hfind
  cases h with
  | submit invocable clock path args name =>
    exact ⟨j, JobManager.find_submit_old m invocable clock path args name id j hfind,
      Or.inl rfl, fun _ => rfl⟩
  | cancel clock id₀ =>
    rcases h₀ : m.find id₀ with _ | j₀
    · rw [JobManager.cancel_job_none m clock id₀ h₀]
      exact ⟨j, hfind, Or.inl rfl, fun _ => rfl⟩
    · rw [JobManager.cancel_job_known m clock id₀ j₀ h₀]
      by_cases ht : j₀.status.isTerminal = true
      · rw [if_pos ht]
        exact ⟨j, hfind, Or.inl rfl, fun _ => rfl⟩
      · rw [if_neg ht]
        have hupd := JobManager.find_update m id₀ id (cancelUpdate clock)
          (cancelUpdate_job_id clock)
        simp only [Prod.snd]
        rw [hupd, hfind]
        simp only [Option.map_some']
        by_cases hid : (j.job_id == id₀) = true
        · rw [if_pos hid]
          have hid' : id = id₀ := by
            rw [← hjid]
            exact eq_of_beq hid
          have hjj : j = j₀ := by
            rw [hid'] at hfind
            exact Option.some_injective _ (hfind.symm.trans h₀)
          refine ⟨_, rfl, Or.inr ?_, ?_⟩
          · show JobStatus.step j.status JobStatus.cancelled = true
            apply step_cancelled_of_not_terminal
            rw [hjj]
            exact Bool.eq_false_iff.mpr ht
          · intro hterm
            exfalso
            rw [hjj] at hterm
            exact ht hterm
        · rw [if_neg hid]
          exact ⟨j, rfl, Or.inl rfl, fun _ => rfl⟩
  | finish clock id₀ exit_ok payload =>
    have hupd := JobManager.find_update m id₀ id (finishUpdate clock exit_ok payload)
      (finishUpdate_job_id clock exit_ok payload)
    show ∃ j', (m.finish_job clock id₀ exit_ok payload).find id = some j' ∧ _
    unfold JobManager.finish_job
    rw [hupd, hfind]
    simp only [Option.map_some']
    by_cases hid : (j.job_id == id₀) = true
    · rw [if_pos hid]
      by_cases hrun : j.status = .running
      · exact ⟨_, rfl, Or.inr (finishUpdate_status_step clock exit_ok payload j hrun),
          fun hterm => absurd hrun (by
            intro h'
            exact terminal_not_running j.status hterm h')⟩
      · rw [finishUpdate_not_running clock exit_ok payload j hrun]
        exact ⟨j, rfl, Or.inl rfl, fun _ => rfl⟩
    · rw [if_neg hid]
      exact ⟨j, rfl, Or.inl rfl, fun _ => rfl⟩
  | log id₀ line =>
    have hupd := JobManager.find_update m id₀ id (appendLogUpdate line)
      (appendLogUpdate_job_id line)
    show ∃ j', (m.append_log id₀ line).find id = some j' ∧ _
    unfold JobManager.append_log
    rw [hupd, hfind]
    simp only [Option.map_some']
    by_cases hid : (j.job_id == id₀) = true
    · rw [if_pos hid]
      by_cases hrun : j.status = .running
      · exact ⟨_, rfl, Or.inl (appendLogUpdate_status line j),
          fun hterm => absurd hrun (by
            intro h'
            exact terminal_not_running j.status hterm h')⟩
      · rw [appendLogUpdate_not_running line j hrun]
        exact ⟨j, rfl, Or.inl rfl, fun _ => rfl⟩
    · rw [if_neg hid]
      exact ⟨j, rfl, Or.inl rfl, fun _ => rfl⟩

/-! Sample objects used by the closed witnesses below. -/

/-- A terminal (completed) job as the registry stores it. -/
def demoCompletedJob : Job :=
  { job_id := 0
    job_name := "demo"
    script_path := "scripts/pnear_analysis.py"
    args := [("input", "a.txt")]
    status := .completed
    created_at := 0
    started_at := some 0
    completed_at := some 1
    log := ["line1", "line2"]
    result := some "\x7b\x22value\x22: 42\x7d"
    error := none }

/-- A registry holding the one completed job. -/
def demoManager : JobManager := ⟨[demoCompletedJob], 1⟩

/-- A running job whose log holds 51 lines. -/
def demoLogJob : Job :=
  { job_id := 0
    job_name := "logger"
    script_path := "scripts/pnear_analysis.py"
    args := []
    status := .running
    created_at := 0
    started_at := some 0
    completed_at := none
    log := List.replicate 51 "line"
    result := none
    error := none }

/-- A registry holding the one running job. -/
def demoLogManager : JobManager := ⟨[demoLogJob], 1⟩

/-- C1: job statuses follow the state machine
`pending → running → {completed | failed | cancelled}`: every permitted
transition strictly advances the lifecycle rank, no transition leaves a
terminal state, and across any sequence of manager operations (submissions,
cancellations, recorded exits, drained log lines) a registered job's observed
status never moves backward and a job seen terminal is never changed again,
`cancel_job` included. -/
theorem job_status_state_machine :
    (∀ s t : JobStatus, JobStatus.step s t = true → s.rank < t.rank) ∧
    (∀ s t : JobStatus, s.isTerminal = true → JobStatus.step s t = false) ∧
    (∀ m m' : JobManager, Relation.ReflTransGen MStep m m' → ∀ id j,
      m.find id = some j →
      ∃ j', m'.find id = some j' ∧ j.status.rank ≤ j'.status.rank ∧
        (j.status.isTerminal = true → j' = j)) := by
  refine ⟨step_rank_lt, terminal_no_step, ?_⟩
  intro m m' hsteps
  induction hsteps with
  | refl => exact fun id j h => ⟨j, h, le_refl _, fun _ => rfl⟩
  | tail hs hstep ih =>
    intro id j hfind
    obtain ⟨j₁, hf₁, hr₁, ht₁⟩ := ih id j hfind
    obtain ⟨j₂, hf₂, hs₂, ht₂⟩ := mstep_find hstep id j₁ hf₁
    refine ⟨j₂, hf₂, ?_, ?_⟩
    · rcases hs₂ with he | hst
      · rw [he]; exact hr₁
      · exact le_trans hr₁ (Nat.le_of_lt (step_rank_lt _ _ hst))
    · intro hterm
      have hj₁ : j₁ = j := ht₁ hterm
      have hterm₁ : j₁.status.isTerminal = true := by rw [hj₁]; exact hterm
      rw [ht₂ hterm₁, hj₁]

/-- C1 witness: the monotonicity statement applied to a concrete registry
after a concrete (empty) sequence of operations. -/
theorem job_status_state_machine_witness :
    ∃ j', demoManager.find 0 = some j' ∧
      demoCompletedJob.status.rank ≤ j'.status.rank ∧
      (demoCompletedJob.status.isTerminal = true → j' = demoCompletedJob) :=
  job_status_state_machine.2.2 demoManager demoManager Relation.ReflTransGen.refl
    0 demoCompletedJob rfl

/-- C2: submitting a job with an invocable executable returns
`{status: "submitted", job_id}` with a job id distinct from every id already
registered, and that id is immediately usable as the lookup key of
`get_job_status`, `get_job_result`, `get_job_log` and `cancel_job`. -/
theorem submit_job_fresh_usable (m : JobManager) (invocable : List String)
    (clock : Nat) (path : String) (args : List (String × String))
    (name : Option String) (hpath : path ∈ invocable) (hc : m.IdsBelowCounter) :
    (m.submit_job invocable clock path args name).1 = .submitted m.counter ∧
    (∀ j ∈ m.jobs, j.job_id ≠ m.counter) ∧
    ((m.submit_job invocable clock path args name).2).find m.counter
      = some (newJob m.counter clock path args name) ∧
    server.get_job_status (m.submit_job invocable clock path args name).2 m.counter
      = .ok (newJob m.counter clock path args name).snapshot ∧
    server.get_job_result (m.submit_job invocable clock path args name).2 m.counter
      = .error notReadyMsg ∧
    (∀ t, server.get_job_log (m.submit_job invocable clock path args name).2 m.counter t
      = .ok [] 0) ∧
    (server.cancel_job (m.submit_job invocable clock path args name).2 clock m.counter).1
      = .success "Job cancelled" := by
  have hfind := JobManager.find_submit_new m invocable clock path args name hpath hc
  refine ⟨?_, ?_, hfind, ?_, ?_, ?_, ?_⟩
  · unfold JobManager.submit_job
    rw [if_pos hpath]
  · intro j hj
    exact Nat.ne_of_lt (hc j hj)
  · unfold server.get_job_status JobManager.get_job_status
    rw [hfind]
  · unfold server.get_job_result JobManager.get_job_result
    rw [hfind]
    rfl
  · intro t
    unfold server.get_job_log JobManager.get_job_log
    rw [hfind]
    show LogResponse.ok (tailLines [] t) 0 = .ok [] 0
    rw [tailLines_nil]
  · unfold server.cancel_job
    rw [JobManager.cancel_job_known _ clock m.counter _ hfind]
    rfl

/-- C2 witness: submitting `pnear_analysis.py` to the demo registry yields
the fresh id 1, with the submitted-status result. -/
theorem submit_job_fresh_usable_witness :
    (demoManager.submit_job [pnearScriptPath] 3 pnearScriptPath
      [("input", "b.txt")] none).1 = .submitted 1 :=
  (submit_job_fresh_usable demoManager [pnearScriptPath] 3 pnearScriptPath
    [("input", "b.txt")] none (by decide)
    (by
      intro j hj
      have h := List.mem_singleton.mp hj
      rw [h]
      decide)).1

/-- C5: `cancel_job` on a job already in a terminal state returns the
structured "job already finished" error and returns the manager unchanged, so
the job's status, timestamps, result payload and error message all stay as
they were. -/
theorem cancel_terminal_noop (m : JobManager) (clock id : Nat) (j : Job)
    (hfind : m.find id = some j) (hterm : j.status.isTerminal = true) :
    server.cancel_job m clock id = (.error alreadyFinishedMsg, m) := by
  unfold server.cancel_job
  rw [JobManager.cancel_job_known m clock id j hfind, if_pos hterm]

/-- C5 witness: cancelling the completed demo job leaves the registry as it
was and reports the error. -/
theorem cancel_terminal_noop_witness :
    server.cancel_job demoManager 7 0 = (.error alreadyFinishedMsg, demoManager) :=
  cancel_terminal_noop demoManager 7 0 demoCompletedJob rfl rfl

/-- C6: every query or control operation called with a job id absent from the
registry returns a structured error result (never a raised fault): this holds
for `get_job_status`, `get_job_result`, `get_job_log` and `cancel_job`. -/
theorem unknown_job_structured_errors (m : JobManager) (id tail clock : Nat)
    (h : m.find id = none) :
    server.get_job_status m id = .error (unknownJobMsg id) ∧
    server.get_job_result m id = .error (unknownJobMsg id) ∧
    server.get_job_log m id tail = .error (unknownJobMsg id) ∧
    server.cancel_job m clock id = (.error (unknownJobMsg id), m) := by
  refine ⟨?_, ?_, ?_, ?_⟩
  · unfold server.get_job_status JobManager.get_job_status
    rw [h]
  · unfold server.get_job_result JobManager.get_job_result
    rw [h]
  · unfold server.get_job_log JobManager.get_job_log
    rw [h]
  · exact JobManager.cancel_job_none m clock id h

/-- C6 witness: id 5 is unknown to the demo registry and all four operations
report the structured error. -/
theorem unknown_job_structured_errors_witness :
    server.get_job_status demoManager 5 = .error (unknownJobMsg 5) ∧
    server.get_job_result demoManager 5 = .error (unknownJobMsg 5) ∧
    server.get_job_log demoManager 5 9 = .error (unknownJobMsg 5) ∧
    server.cancel_job demoManager 4 5 = (.error (unknownJobMsg 5), demoManager) :=
  unknown_job_structured_errors demoManager 5 9 4 rfl

/-- C7: `list_jobs` with a status filter returns summaries for exactly the
registry jobs with that status (and with no filter, for all jobs); the total
equals the length of the returned list, and each summary is built from the
job's identity, name, status and timestamps only — it is unchanged if the
job's log buffer, result or error are replaced, and carries no process
handle. -/
theorem list_jobs_exact (m : JobManager) (s : JobStatus) :
    (∀ x, x ∈ (server.list_jobs m (some s)).jobs ↔
      ∃ j ∈ m.jobs, j.status = s ∧ x = j.summary) ∧
    (∀ x, x ∈ (server.list_jobs m none).jobs ↔ ∃ j ∈ m.jobs, x = j.summary) ∧
    (server.list_jobs m (some s)).total = (server.list_jobs m (some s)).jobs.length ∧
    (server.list_jobs m none).total = (server.list_jobs m none).jobs.length ∧
    (∀ j : Job, ∀ log' res' err',
      ({ j with log := log', result := res', error := err' } : Job).summary
        = j.summary) := by
  refine ⟨?_, ?_, ?_, ?_, ?_⟩
  · intro x
    unfold server.list_jobs JobManager.list_jobs
    simp only [List.mem_map, List.mem_filter, beq_iff_eq]
    constructor
    · rintro ⟨j, ⟨hj, hst⟩, hx⟩
      exact ⟨j, hj, hst, hx.symm⟩
    · rintro ⟨j, hj, hst, hx⟩
      exact ⟨j, ⟨hj, hst⟩, hx.symm⟩
  · intro x
    unfold server.list_jobs JobManager.list_jobs
    simp only [List.mem_map]
    constructor
    · rintro ⟨j, hj, hx⟩
      exact ⟨j, hj, hx.symm⟩
    · rintro ⟨j, hj, hx⟩
      exact ⟨j, hj, hx.symm⟩
  · unfold server.list_jobs JobManager.list_jobs
    simp [List.length_map]
  · unfold server.list_jobs JobManager.list_jobs
    simp [List.length_map]
  · intro j log' res' err'
    rfl

/-- C3: under the stored-field invariant, `get_job_result` answers with
`{status: "success", result}` exactly on a completed job; on a failed or
cancelled job it returns the stored non-empty error or cancellation reason;
on a pending or running job it returns the structured "not ready" error — in
every case a structured result, never a fault. -/
theorem get_job_result_matches_status (m : JobManager) (id : Nat) (j : Job)
    (hfind : m.find id = some j) (hwf : j.WF) :
    ((∃ r, server.get_job_result m id = .success r) ↔ j.status = .completed) ∧
    (j.status = .failed ∨ j.status = .cancelled →
      ∃ e, j.error = some e ∧ e ≠ "" ∧ server.get_job_result m id = .error e) ∧
    (j.status = .pending ∨ j.status = .running →
      server.get_job_result m id = .error notReadyMsg) := by
  obtain ⟨hwfc, hwff, hwfp⟩ := hwf
  have hred : server.get_job_result m id
      = (match j.status with
        | .completed => ResultResponse.success (j.result.getD "")
        | .failed => ResultResponse.error (j.error.getD "Unknown error")
        | .cancelled => ResultResponse.error (j.error.getD "Unknown error")
        | .pending => ResultResponse.error notReadyMsg
        | .running => ResultResponse.error notReadyMsg) := by
    unfold server.get_job_result JobManager.get_job_result
    rw [hfind]
  rw [hred]
  cases hst : j.status with
  | pending =>
    refine ⟨⟨?_, ?_⟩, ?_, fun _ => rfl⟩
    · rintro ⟨r, hr⟩; cases hr
    · intro hcomp; cases hcomp
    · rintro (hf | hf) <;> cases hf
  | running =>
    refine ⟨⟨?_, ?_⟩, ?_, fun _ => rfl⟩
    · rintro ⟨r, hr⟩; cases hr
    · intro hcomp; cases hcomp
    · rintro (hf | hf) <;> cases hf
  | completed =>
    refine ⟨⟨fun _ => rfl, fun _ => ⟨j.result.getD "", rfl⟩⟩, ?_, ?_⟩
    · rintro (hf | hf) <;> cases hf
    · rintro (hf | hf) <;> cases hf
  | failed =>
    refine ⟨⟨?_, ?_⟩, ?_, ?_⟩
    · rintro ⟨r, hr⟩; cases hr
    · intro hcomp; cases hcomp
    · intro _
      obtain ⟨hres, hsome, hne⟩ := hwff (Or.inl hst)
      obtain ⟨e, he⟩ := Option.isSome_iff_exists.mp hsome
      refine ⟨e, he, fun h => hne (by rw [he, h]), ?_⟩
      rw [he]
      rfl
    · rintro (hf | hf) <;> cases hf
  | cancelled =>
    refine ⟨⟨?_, ?_⟩, ?_, ?_⟩
    · rintro ⟨r, hr⟩; cases hr
    · intro hcomp; cases hcomp
    · intro _
      obtain ⟨hres, hsome, hne⟩ := hwff (Or.inr hst)
      obtain ⟨e, he⟩ := Option.isSome_iff_exists.mp hsome
      refine ⟨e, he, fun h => hne (by rw [he, h]), ?_⟩
      rw [he]
      rfl
    · rintro (hf | hf) <;> cases hf

/-- C3 witness: the demo registry's completed job answers success, and the
other two branches hold vacuously at this job. -/
theorem get_job_result_matches_status_witness :
    ((∃ r, server.get_job_result demoManager 0 = .success r)
      ↔ demoCompletedJob.status = .completed) ∧
    (demoCompletedJob.status = .failed ∨ demoCompletedJob.status = .cancelled →
      ∃ e, demoCompletedJob.error = some e ∧ e ≠ "" ∧
        server.get_job_result demoManager 0 = .error e) ∧
    (demoCompletedJob.status = .pending ∨ demoCompletedJob.status = .running →
      server.get_job_result demoManager 0 = .error notReadyMsg) :=
  get_job_result_matches_status demoManager 0 demoCompletedJob rfl (by decide)

/-- C4 (amended): for a known job and `tail = N > 0`, `get_job_log` returns a
suffix of the captured log of length `min N total` — so at most `N` lines,
equal to the last `N` lines — regardless of status; `tail = 0` returns all
captured lines; and a caller of the `get_job_log` tool that omits `tail` gets
the tool's default of 50, i.e. the last 50 lines, not all lines. -/
theorem get_job_log_tail_amended (m : JobManager) (id tail : Nat) (j : Job)
    (hfind : m.find id = some j) :
    (0 < tail →
      ∃ lines, m.get_job_log id tail = .ok lines j.log.length ∧
        lines.length = min tail j.log.length ∧ lines.length ≤ tail ∧
        List.IsSuffix lines j.log) ∧
    m.get_job_log id 0 = .ok j.log j.log.length ∧
    server.get_job_log m id = m.get_job_log id 50 := by
  refine ⟨?_, ?_, rfl⟩
  · intro ht
    refine ⟨j.log.drop (j.log.length - tail), ?_, ?_, ?_, List.drop_suffix _ _⟩
    · unfold JobManager.get_job_log
      rw [hfind]
      show LogResponse.ok (tailLines j.log tail) j.log.length = _
      unfold tailLines
      rw [if_neg (Nat.pos_iff_ne_zero.mp ht)]
    · rw [List.length_drop]
      omega
    · rw [List.length_drop]
      omega
  · unfold JobManager.get_job_log
    rw [hfind]
    show LogResponse.ok (tailLines j.log 0) j.log.length = _
    unfold tailLines
    rw [if_pos rfl]

/-- C4 witness: the amended statement at the demo 51-line log with
`tail = 2`. -/
theorem get_job_log_tail_amended_witness :
    (0 < 2 →
      ∃ lines, demoLogManager.get_job_log 0 2 = .ok lines demoLogJob.log.length ∧
        lines.length = min 2 demoLogJob.log.length ∧ lines.length ≤ 2 ∧
        List.IsSuffix lines demoLogJob.log) ∧
    demoLogManager.get_job_log 0 0 = .ok demoLogJob.log demoLogJob.log.length ∧
    server.get_job_log demoLogManager 0 = demoLogManager.get_job_log 0 50 :=
  get_job_log_tail_amended demoLogManager 0 2 demoLogJob rfl

/-- C4 counterexample: the claim says an omitted `tail` returns all captured
lines, but the `get_job_log` tool defaults `tail` to 50 (`server.py` line 56):
on a job whose log holds 51 lines it returns the last 50 lines, which differ
from the full log. -/
theorem get_job_log_default_counterexample :
    server.get_job_log demoLogManager 0 = .ok (List.replicate 50 "line") 51 ∧
    (LogResponse.ok (List.replicate 50 "line") 51)
      ≠ .ok demoLogJob.log demoLogJob.log.length := by
  constructor
  · decide
  · decide

/-! Command-line derivation and the backbone script's parser. -/

theorem buildCommandLine_cons (kv : String × String) (rest : List (String × String)) :
    buildCommandLine (kv :: rest)
      = (if kv.2 = "" then ["--" ++ kv.1] else ["--" ++ kv.1, kv.2])
        ++ buildCommandLine rest := rfl

theorem buildCommandLine_mem_value (args : List (String × String)) (k v : String)
    (hmem : (k, v) ∈ args) (hv : v ≠ "") :
    ∃ l r, buildCommandLine args = l ++ ["--" ++ k, v] ++ r := by
  induction args with
  | nil => cases hmem
  | cons a rest ih =>
    rcases List.mem_cons.mp hmem with heq | hmem'
    · refine ⟨[], buildCommandLine rest, ?_⟩
      rw [← heq, buildCommandLine_cons]
      rw [if_neg hv]
      simp
    · obtain ⟨l, r, hlr⟩ := ih hmem'
      refine ⟨(if a.2 = "" then ["--" ++ a.1] else ["--" ++ a.1, a.2]) ++ l, r, ?_⟩
      rw [buildCommandLine_cons, hlr]
      simp [List.append_assoc]

theorem buildCommandLine_mem_flag (args : List (String × String)) (k : String)
    (hmem : (k, "") ∈ args) :
    ∃ l r, buildCommandLine args = l ++ ["--" ++ k] ++ r := by
  induction args with
  | nil => cases hmem
  | cons a rest ih =>
    rcases List.mem_cons.mp hmem with heq | hmem'
    · refine ⟨[], buildCommandLine rest, ?_⟩
      rw [← heq, buildCommandLine_cons]
      rw [if_pos rfl]
      simp
    · obtain ⟨l, r, hlr⟩ := ih hmem'
      refine ⟨(if a.2 = "" then ["--" ++ a.1] else ["--" ++ a.1, a.2]) ++ l, r, ?_⟩
      rw [buildCommandLine_cons, hlr]
      simp [List.append_assoc]

theorem looksLikeOption_natDigits (n : Nat) :
    looksLikeOptionTok (natDigits n) = false := by
  rcases hnd : natDigits n with _ | ⟨c, cs⟩
  · exact absurd hnd (natDigits_ne_nil n)
  · have hall := natDigits_all_digit n
    rw [hnd] at hall
    simp only [List.all_cons, Bool.and_eq_true] at hall
    have hc : isDigitChar c = true := hall.1
    have hcm : (c == '-') = false := by
      rcases hbe : c == '-' with _ | _
      · rfl
      · exfalso
        have hce : c = '-' := eq_of_beq hbe
        rw [hce] at hc
        exact absurd hc (by decide)
    show (c == '-' && !cs.isEmpty && !isNegativeNumberToken (c :: cs)
      && !(c :: cs).contains ' ') = false
    rw [hcm]
    simp

theorem looksLikeOption_intStr (i : Int) : looksLikeOption (intStr i) = false := by
  rw [intStr]
  split
  · rename_i h
    show looksLikeOptionTok ("-" ++ natStr i.natAbs).data = false
    rw [data_minus_append]
    show looksLikeOptionTok ('-' :: natDigits i.natAbs) = false
    have h1 : (natDigits i.natAbs).isEmpty = false := by
      rcases hnd : natDigits i.natAbs with _ | ⟨c, cs⟩
      · exact absurd hnd (natDigits_ne_nil _)
      · rfl
    have hneg : isNegativeNumberToken ('-' :: natDigits i.natAbs) = true := by
      show ((!(natDigits i.natAbs).isEmpty && (natDigits i.natAbs).all isDigitChar)
        || negNumberFracTail (natDigits i.natAbs)) = true
      rw [h1, natDigits_all_digit]
      rfl
    show ('-' == '-' && !(natDigits i.natAbs).isEmpty
      && !isNegativeNumberToken ('-' :: natDigits i.natAbs)
      && !('-' :: natDigits i.natAbs).contains ' ') = false
    rw [hneg]
    simp
  · rename_i h
    show looksLikeOptionTok (natStr i.natAbs).data = false
    exact looksLikeOption_natDigits i.natAbs

theorem isFloatToken_ne_empty (s : String) (h : isFloatToken s = true) : s ≠ "" := by
  intro h0
  rw [h0] at h
  exact absurd h (by decide)

/-- A present optional string value that `argparse` would take as a value,
not an option. -/
def StrValueOk (v : Option String) : Prop :=
  ∀ x, v = some x → looksLikeOption x = false

/-- A present optional value token that `argparse` takes as a value and its
`float` conversion accepts. -/
def FloatValueOk (v : Option String) : Prop :=
  ∀ x, v = some x → looksLikeOption x = false ∧ isFloatToken x = true

theorem parse_size_step (v : String) (ts : List String) (acc : BackboneCli) (n : Int)
    (hlv : looksLikeOption v = false) (hv : parseIntStr v = some n)
    (hn : n ∈ SUPPORTED_SIZES) :
    parseBackboneTokens ("--size" :: v :: ts) acc
      = parseBackboneTokens ts { acc with size := some n } := by
  have h0 : parseBackboneTokens ("--size" :: v :: ts) acc
      = (if looksLikeOption v then none
        else
          match parseIntStr v with
          | some k =>
            if k ∈ SUPPORTED_SIZES then parseBackboneTokens ts { acc with size := some k }
            else none
          | none => none) := rfl
  rw [h0, hlv]
  show (match parseIntStr v with
    | some k =>
      if k ∈ SUPPORTED_SIZES then parseBackboneTokens ts { acc with size := some k }
      else none
    | none => none) = _
  rw [hv]
  exact if_pos hn

theorem parse_output_dir_step (v : String) (ts : List String) (acc : BackboneCli)
    (hlv : looksLikeOption v = false) :
    parseBackboneTokens ("--output-dir" :: v :: ts) acc
      = parseBackboneTokens ts { acc with output_dir := some v } := by
  have h0 : parseBackboneTokens ("--output-dir" :: v :: ts) acc
      = (if looksLikeOption v then none
        else parseBackboneTokens ts { acc with output_dir := some v }) := rfl
  rw [h0, hlv]
  rfl

theorem parse_output_dir_step_bad (v : String) (ts : List String) (acc : BackboneCli)
    (hlv : looksLikeOption v = true) :
    parseBackboneTokens ("--output-dir" :: v :: ts) acc = none := by
  have h0 : parseBackboneTokens ("--output-dir" :: v :: ts) acc
      = (if looksLikeOption v then none
        else parseBackboneTokens ts { acc with output_dir := some v }) := rfl
  rw [h0, hlv]
  rfl

theorem parse_config_step (v : String) (ts : List String) (acc : BackboneCli)
    (hlv : looksLikeOption v = false) :
    parseBackboneTokens ("--config" :: v :: ts) acc
      = parseBackboneTokens ts { acc with config := some v } := by
  have h0 : parseBackboneTokens ("--config" :: v :: ts) acc
      = (if looksLikeOption v then none
        else parseBackboneTokens ts { acc with config := some v }) := rfl
  rw [h0, hlv]
  rfl

theorem parse_nc_step (v : String) (ts : List String) (acc : BackboneCli) (n : Int)
    (hlv : looksLikeOption v = false) (hv : parseIntStr v = some n) :
    parseBackboneTokens ("--num-combinations" :: v :: ts) acc
      = parseBackboneTokens ts { acc with num_combinations := n } := by
  have h0 : parseBackboneTokens ("--num-combinations" :: v :: ts) acc
      = (if looksLikeOption v then none
        else
          match parseIntStr v with
          | some k => parseBackboneTokens ts { acc with num_combinations := k }
          | none => none) := rfl
  rw [h0, hlv]
  show (match parseIntStr v with
    | some k => parseBackboneTokens ts { acc with num_combinations := k }
    | none => none) = _
  rw [hv]

theorem parse_optimize_step (ts : List String) (acc : BackboneCli) :
    parseBackboneTokens ("--optimize" :: ts) acc
      = parseBackboneTokens ts { acc with optimize := true } := by
  cases ts with
  | nil => rfl
  | cons t ts' => rfl

/-- The shapes of argument pairs the submit tool puts after `size`: valued
`output-dir`/`config` (non-empty, usable as argparse values), the bare
`optimize` flag, and a rendered-integer `num-combinations`. -/
def BackboneOptPair (kv : String × String) : Prop :=
  (kv.1 = "output-dir" ∧ kv.2 ≠ "" ∧ looksLikeOption kv.2 = false) ∨
  (kv.1 = "config" ∧ kv.2 ≠ "" ∧ looksLikeOption kv.2 = false) ∨
  (kv.1 = "optimize" ∧ kv.2 = "") ∨
  (kv.1 = "num-combinations" ∧ ∃ n, kv.2 = intStr n)

theorem parse_opt_tail (args : List (String × String))
    (h : ∀ kv ∈ args, BackboneOptPair kv) (acc : BackboneCli) :
    ∃ acc', parseBackboneTokens (buildCommandLine args) acc = some acc' ∧
      acc'.size = acc.size := by
  induction args generalizing acc with
  | nil => exact ⟨acc, rfl, rfl⟩
  | cons kv rest ih =>
    have hkv := h kv (List.mem_cons_self _ _)
    have hrest : ∀ x ∈ rest, BackboneOptPair x :=
      fun x hx => h x (List.mem_cons_of_mem _ hx)
    obtain ⟨k₂, v₂⟩ := kv
    rcases hkv with ⟨hk, hv, hlv⟩ | ⟨hk, hv, hlv⟩ | ⟨hk, hv⟩ | ⟨hk, n, hv⟩
    · replace hk : k₂ = "output-dir" := hk
      replace hv : v₂ ≠ "" := hv
      replace hlv : looksLikeOption v₂ = false := hlv
      subst hk
      obtain ⟨acc', ha, hs⟩ := ih hrest { acc with output_dir := some v₂ }
      refine ⟨acc', ?_, hs⟩
      rw [buildCommandLine_cons]
      rw [if_neg hv]
      exact (parse_output_dir_step v₂ (buildCommandLine rest) acc hlv).trans ha
    · replace hk : k₂ = "config" := hk
      replace hv : v₂ ≠ "" := hv
      replace hlv : looksLikeOption v₂ = false := hlv
      subst hk
      obtain ⟨acc', ha, hs⟩ := ih hrest { acc with config := some v₂ }
      refine ⟨acc', ?_, hs⟩
      rw [buildCommandLine_cons]
      rw [if_neg hv]
      exact (parse_config_step v₂ (buildCommandLine rest) acc hlv).trans ha
    · replace hk : k₂ = "optimize" := hk
      replace hv : v₂ = "" := hv
      subst hk
      subst hv
      obtain ⟨acc', ha, hs⟩ := ih hrest { acc with optimize := true }
      refine ⟨acc', ?_, hs⟩
      rw [buildCommandLine_cons]
      rw [if_pos rfl]
      exact (parse_optimize_step (buildCommandLine rest) acc).trans ha
    · replace hk : k₂ = "num-combinations" := hk
      replace hv : v₂ = intStr n := hv
      subst hk
      subst hv
      obtain ⟨acc', ha, hs⟩ := ih hrest { acc with num_combinations := n }
      refine ⟨acc', ?_, hs⟩
      rw [buildCommandLine_cons]
      rw [if_neg (intStr_ne_empty n)]
      exact (parse_nc_step (intStr n) (buildCommandLine rest) acc n
        (looksLikeOption_intStr n) (parseIntStr_intStr n)).trans ha

theorem optArg_mem (k : String) (v : Option String) :
    ∀ kv ∈ optArg k v, kv.1 = k ∧ kv.2 ≠ "" := by
  intro kv hkv
  rcases v with _ | x
  · cases hkv
  · by_cases hx : x = ""
    · rw [show optArg k (some x) = if x = "" then [] else [(k, x)] from rfl,
        if_pos hx] at hkv
      cases hkv
    · rw [show optArg k (some x) = if x = "" then [] else [(k, x)] from rfl,
        if_neg hx, List.mem_singleton] at hkv
      rw [hkv]
      exact ⟨rfl, hx⟩

theorem optArg_mem_ok (k : String) (v : Option String) (hok : StrValueOk v) :
    ∀ kv ∈ optArg k v, kv.1 = k ∧ kv.2 ≠ "" ∧ looksLikeOption kv.2 = false := by
  intro kv hkv
  obtain ⟨h1, h2⟩ := optArg_mem k v kv hkv
  refine ⟨h1, h2, ?_⟩
  rcases v with _ | x
  · cases hkv
  · by_cases hx : x = ""
    · rw [show optArg k (some x) = if x = "" then [] else [(k, x)] from rfl,
        if_pos hx] at hkv
      cases hkv
    · rw [show optArg k (some x) = if x = "" then [] else [(k, x)] from rfl,
        if_neg hx, List.mem_singleton] at hkv
      rw [hkv]
      exact hok x rfl

theorem optNumArg_mem_int (k : String) (v : Option Int) :
    ∀ kv ∈ optNumArg k (v.map intStr), kv.1 = k ∧ ∃ n, kv.2 = intStr n := by
  intro kv hkv
  rcases v with _ | n
  · cases hkv
  · rw [show optNumArg k ((some n).map intStr) = [(k, intStr n)] from rfl,
      List.mem_singleton] at hkv
    rw [hkv]
    exact ⟨rfl, n, rfl⟩

theorem optNumArg_mem_float (k : String) (v : Option String) (hok : FloatValueOk v) :
    ∀ kv ∈ optNumArg k v,
      kv.1 = k ∧ looksLikeOption kv.2 = false ∧ isFloatToken kv.2 = true := by
  intro kv hkv
  rcases v with _ | x
  · cases hkv
  · rw [show optNumArg k (some x) = [(k, x)] from rfl, List.mem_singleton] at hkv
    obtain ⟨h1, h2⟩ := hok x rfl
    rw [hkv]
    exact ⟨rfl, h1, h2⟩

theorem backboneArgs_tail_ok (od : Option String) (opt : Bool) (nc : Option Int)
    (cf : Option String) (hod : StrValueOk od) (hcf : StrValueOk cf) :
    ∀ kv ∈ (optArg "output-dir" od ++ (if opt then [("optimize", "")] else [])
        ++ optNumArg "num-combinations" (nc.map intStr) ++ optArg "config" cf),
      BackboneOptPair kv := by
  intro kv hkv
  rcases List.mem_append.mp hkv with h3 | hcf'
  · rcases List.mem_append.mp h3 with h2 | hnc
    · rcases List.mem_append.mp h2 with hod' | hflag
      · exact Or.inl (optArg_mem_ok "output-dir" od hod kv hod')
      · rcases opt with _ | _
        · cases hflag
        · rw [if_pos rfl, List.mem_singleton] at hflag
          rw [hflag]
          exact Or.inr (Or.inr (Or.inl ⟨rfl, rfl⟩))
    · exact Or.inr (Or.inr (Or.inr (optNumArg_mem_int "num-combinations" nc kv hnc)))
  · exact Or.inr (Or.inl (optArg_mem_ok "config" cf hcf kv hcf'))

theorem backbone_cli_accepts_args (size : Int) (hmem : size ∈ server.valid_sizes)
    (od : Option String) (opt : Bool) (nc : Option Int) (cf : Option String)
    (hod : StrValueOk od) (hcf : StrValueOk cf) :
    backboneCliAccepts
      (buildCommandLine (server.backboneArgs size od opt nc cf)) = true := by
  have h1 : buildCommandLine (server.backboneArgs size od opt nc cf)
      = "--size" :: intStr size :: buildCommandLine
          (optArg "output-dir" od ++ (if opt then [("optimize", "")] else [])
            ++ optNumArg "num-combinations" (nc.map intStr) ++ optArg "config" cf) := by
    show buildCommandLine (("size", intStr size)
      :: (optArg "output-dir" od ++ (if opt then [("optimize", "")] else [])
        ++ optNumArg "num-combinations" (nc.map intStr) ++ optArg "config" cf)) = _
    rw [buildCommandLine_cons]
    rw [if_neg (intStr_ne_empty size)]
    rfl
  unfold backboneCliAccepts
  rw [h1]
  rw [parse_size_step (intStr size) _ {} size (looksLikeOption_intStr size)
    (parseIntStr_intStr size) hmem]
  obtain ⟨acc', ha, hs⟩ := parse_opt_tail _ (backboneArgs_tail_ok od opt nc cf hod hcf)
    { ({} : BackboneCli) with size := some size }
  rw [ha]
  show acc'.size.isSome = true
  rw [hs]
  rfl

/-! The pnear parser's acceptance of the tool-built mappings. -/

theorem parse_pnear_input_step (v : String) (ts : List String) (acc : PnearCli)
    (hlv : looksLikeOption v = false) :
    parsePnearTokens ("--input" :: v :: ts) acc
      = parsePnearTokens ts { acc with input := some v } := by
  have h0 : parsePnearTokens ("--input" :: v :: ts) acc
      = (if looksLikeOption v then none
        else parsePnearTokens ts { acc with input := some v }) := rfl
  rw [h0, hlv]
  rfl

theorem parse_pnear_output_dir_step (v : String) (ts : List String) (acc : PnearCli)
    (hlv : looksLikeOption v = false) :
    parsePnearTokens ("--output-dir" :: v :: ts) acc
      = parsePnearTokens ts { acc with output_dir := some v } := by
  have h0 : parsePnearTokens ("--output-dir" :: v :: ts) acc
      = (if looksLikeOption v then none
        else parsePnearTokens ts { acc with output_dir := some v }) := rfl
  rw [h0, hlv]
  rfl

theorem parse_pnear_config_step (v : String) (ts : List String) (acc : PnearCli)
    (hlv : looksLikeOption v = false) :
    parsePnearTokens ("--config" :: v :: ts) acc
      = parsePnearTokens ts { acc with config := some v } := by
  have h0 : parsePnearTokens ("--config" :: v :: ts) acc
      = (if looksLikeOption v then none
        else parsePnearTokens ts { acc with config := some v }) := rfl
  rw [h0, hlv]
  rfl

theorem parse_pnear_minp_step (v : String) (ts : List String) (acc : PnearCli)
    (hlv : looksLikeOption v = false) (hf : isFloatToken v = true) :
    parsePnearTokens ("--min-pnear" :: v :: ts) acc
      = parsePnearTokens ts { acc with min_pnear := some v } := by
  have h0 : parsePnearTokens ("--min-pnear" :: v :: ts) acc
      = (if looksLikeOption v then none
        else if isFloatToken v then parsePnearTokens ts { acc with min_pnear := some v }
        else none) := rfl
  rw [h0, hlv, hf]
  rfl

/-- The shapes of argument pairs the pnear submit tool puts after `input`. -/
def PnearOptPair (kv : String × String) : Prop :=
  (kv.1 = "output-dir" ∧ kv.2 ≠ "" ∧ looksLikeOption kv.2 = false) ∨
  (kv.1 = "config" ∧ kv.2 ≠ "" ∧ looksLikeOption kv.2 = false) ∨
  (kv.1 = "min-pnear" ∧ looksLikeOption kv.2 = false ∧ isFloatToken kv.2 = true)

theorem parse_pnear_opt_tail (args : List (String × String))
    (h : ∀ kv ∈ args, PnearOptPair kv) (acc : PnearCli) :
    ∃ acc', parsePnearTokens (buildCommandLine args) acc = some acc' ∧
      acc'.input = acc.input := by
  induction args generalizing acc with
  | nil => exact ⟨acc, rfl, rfl⟩
  | cons kv rest ih =>
    have hkv := h kv (List.mem_cons_self _ _)
    have hrest : ∀ x ∈ rest, PnearOptPair x :=
      fun x hx => h x (List.mem_cons_of_mem _ hx)
    obtain ⟨k₂, v₂⟩ := kv
    rcases hkv with ⟨hk, hv, hlv⟩ | ⟨hk, hv, hlv⟩ | ⟨hk, hlv, hf⟩
    · replace hk : k₂ = "output-dir" := hk
      replace hv : v₂ ≠ "" := hv
      replace hlv : looksLikeOption v₂ = false := hlv
      subst hk
      obtain ⟨acc', ha, hs⟩ := ih hrest { acc with output_dir := some v₂ }
      refine ⟨acc', ?_, hs⟩
      rw [buildCommandLine_cons]
      rw [if_neg hv]
      exact (parse_pnear_output_dir_step v₂ (buildCommandLine rest) acc hlv).trans ha
    · replace hk : k₂ = "config" := hk
      replace hv : v₂ ≠ "" := hv
      replace hlv : looksLikeOption v₂ = false := hlv
      subst hk
      obtain ⟨acc', ha, hs⟩ := ih hrest { acc with config := some v₂ }
      refine ⟨acc', ?_, hs⟩
      rw [buildCommandLine_cons]
      rw [if_neg hv]
      exact (parse_pnear_config_step v₂ (buildCommandLine rest) acc hlv).trans ha
    · replace hk : k₂ = "min-pnear" := hk
      replace hlv : looksLikeOption v₂ = false := hlv
      replace hf : isFloatToken v₂ = true := hf
      subst hk
      obtain ⟨acc', ha, hs⟩ := ih hrest { acc with min_pnear := some v₂ }
      refine ⟨acc', ?_, hs⟩
      rw [buildCommandLine_cons]
      rw [if_neg (isFloatToken_ne_empty v₂ hf)]
      exact (parse_pnear_minp_step v₂ (buildCommandLine rest) acc hlv hf).trans ha

theorem pnearArgs_tail_ok (od minp cf : Option String)
    (hod : StrValueOk od) (hminp : FloatValueOk minp) (hcf : StrValueOk cf) :
    ∀ kv ∈ (optArg "output-dir" od ++ optNumArg "min-pnear" minp
        ++ optArg "config" cf), PnearOptPair kv := by
  intro kv hkv
  rcases List.mem_append.mp hkv with h2 | hcf'
  · rcases List.mem_append.mp h2 with hod' | hminp'
    · exact Or.inl (optArg_mem_ok "output-dir" od hod kv hod')
    · exact Or.inr (Or.inr (optNumArg_mem_float "min-pnear" minp hminp kv hminp'))
  · exact Or.inr (Or.inl (optArg_mem_ok "config" cf hcf kv hcf'))

theorem pnear_cli_accepts_args (input : String) (od minp cf : Option String)
    (hin1 : input ≠ "") (hin2 : looksLikeOption input = false)
    (hod : StrValueOk od) (hminp : FloatValueOk minp) (hcf : StrValueOk cf) :
    pnearCliAccepts (buildCommandLine (server.pnearArgs input od minp cf)) = true := by
  have h1 : buildCommandLine (server.pnearArgs input od minp cf)
      = "--input" :: input :: buildCommandLine
          (optArg "output-dir" od ++ optNumArg "min-pnear" minp
            ++ optArg "config" cf) := by
    show buildCommandLine (("input", input)
      :: (optArg "output-dir" od ++ optNumArg "min-pnear" minp
        ++ optArg "config" cf)) = _
    rw [buildCommandLine_cons]
    rw [if_neg hin1]
    rfl
  unfold pnearCliAccepts
  rw [h1]
  rw [parse_pnear_input_step input _ {} hin2]
  obtain ⟨acc', ha, hs⟩ := parse_pnear_opt_tail _
    (pnearArgs_tail_ok od minp cf hod hminp hcf)
    { ({} : PnearCli) with input := some input }
  rw [ha]
  show acc'.input.isSome = true
  rw [hs]
  rfl

/-! The sequence parser's acceptance of the tool-built mappings. -/

theorem parse_seq_input_step (v : String) (ts : List String) (acc : SequenceCli)
    (hlv : looksLikeOption v = false) :
    parseSequenceTokens ("--input" :: v :: ts) acc
      = parseSequenceTokens ts { acc with input := some v } := by
  have h0 : parseSequenceTokens ("--input" :: v :: ts) acc
      = (if looksLikeOption v then none
        else parseSequenceTokens ts { acc with input := some v }) := rfl
  rw [h0, hlv]
  rfl

theorem parse_seq_output_dir_step (v : String) (ts : List String) (acc : SequenceCli)
    (hlv : looksLikeOption v = false) :
    parseSequenceTokens ("--output-dir" :: v :: ts) acc
      = parseSequenceTokens ts { acc with output_dir := some v } := by
  have h0 : parseSequenceTokens ("--output-dir" :: v :: ts) acc
      = (if looksLikeOption v then none
        else parseSequenceTokens ts { acc with output_dir := some v }) := rfl
  rw [h0, hlv]
  rfl

theorem parse_seq_config_step (v : String) (ts : List String) (acc : SequenceCli)
    (hlv : looksLikeOption v = false) :
    parseSequenceTokens ("--config" :: v :: ts) acc
      = parseSequenceTokens ts { acc with config := some v } := by
  have h0 : parseSequenceTokens ("--config" :: v :: ts) acc
      = (if looksLikeOption v then none
        else parseSequenceTokens ts { acc with config := some v }) := rfl
  rw [h0, hlv]
  rfl

theorem parse_seq_minp_step (v : String) (ts : List String) (acc : SequenceCli)
    (hlv : looksLikeOption v = false) (hf : isFloatToken v = true) :
    parseSequenceTokens ("--min-pnear" :: v :: ts) acc
      = parseSequenceTokens ts { acc with min_pnear := some v } := by
  have h0 : parseSequenceTokens ("--min-pnear" :: v :: ts) acc
      = (if looksLikeOption v then none
        else if isFloatToken v then
          parseSequenceTokens ts { acc with min_pnear := some v }
        else none) := rfl
  rw [h0, hlv, hf]
  rfl

theorem parse_seq_stable_step (ts : List String) (acc : SequenceCli) :
    parseSequenceTokens ("--stable-only" :: ts) acc
      = parseSequenceTokens ts { acc with stable_only := true } := by
  cases ts with
  | nil => rfl
  | cons t ts' => rfl

/-- The shapes of argument pairs the sequence submit tool puts after
`input`. -/
def SequenceOptPair (kv : String × String) : Prop :=
  (kv.1 = "output-dir" ∧ kv.2 ≠ "" ∧ looksLikeOption kv.2 = false) ∨
  (kv.1 = "config" ∧ kv.2 ≠ "" ∧ looksLikeOption kv.2 = false) ∨
  (kv.1 = "stable-only" ∧ kv.2 = "") ∨
  (kv.1 = "min-pnear" ∧ looksLikeOption kv.2 = false ∧ isFloatToken kv.2 = true)

theorem parse_seq_opt_tail (args : List (String × String))
    (h : ∀ kv ∈ args, SequenceOptPair kv) (acc : SequenceCli) :
    ∃ acc', parseSequenceTokens (buildCommandLine args) acc = some acc' ∧
      acc'.input = acc.input := by
  induction args generalizing acc with
  | nil => exact ⟨acc, rfl, rfl⟩
  | cons kv rest ih =>
    have hkv := h kv (List.mem_cons_self _ _)
    have hrest : ∀ x ∈ rest, SequenceOptPair x :=
      fun x hx => h x (List.mem_cons_of_mem _ hx)
    obtain ⟨k₂, v₂⟩ := kv
    rcases hkv with ⟨hk, hv, hlv⟩ | ⟨hk, hv, hlv⟩ | ⟨hk, hv⟩ | ⟨hk, hlv, hf⟩
    · replace hk : k₂ = "output-dir" := hk
      replace hv : v₂ ≠ "" := hv
      replace hlv : looksLikeOption v₂ = false := hlv
      subst hk
      obtain ⟨acc', ha, hs⟩ := ih hrest { acc with output_dir := some v₂ }
      refine ⟨acc', ?_, hs⟩
      rw [buildCommandLine_cons]
      rw [if_neg hv]
      exact (parse_seq_output_dir_step v₂ (buildCommandLine rest) acc hlv).trans ha
    · replace hk : k₂ = "config" := hk
      replace hv : v₂ ≠ "" := hv
      replace hlv : looksLikeOption v₂ = false := hlv
      subst hk
      obtain ⟨acc', ha, hs⟩ := ih hrest { acc with config := some v₂ }
      refine ⟨acc', ?_, hs⟩
      rw [buildCommandLine_cons]
      rw [if_neg hv]
      exact (parse_seq_config_step v₂ (buildCommandLine rest) acc hlv).trans ha
    · replace hk : k₂ = "stable-only" := hk
      replace hv : v₂ = "" := hv
      subst hk
      subst hv
      obtain ⟨acc', ha, hs⟩ := ih hrest { acc with stable_only := true }
      refine ⟨acc', ?_, hs⟩
      rw [buildCommandLine_cons]
      rw [if_pos rfl]
      exact (parse_seq_stable_step (buildCommandLine rest) acc).trans ha
    · replace hk : k₂ = "min-pnear" := hk
      replace hlv : looksLikeOption v₂ = false := hlv
      replace hf : isFloatToken v₂ = true := hf
      subst hk
      obtain ⟨acc', ha, hs⟩ := ih hrest { acc with min_pnear := some v₂ }
      refine ⟨acc', ?_, hs⟩
      rw [buildCommandLine_cons]
      rw [if_neg (isFloatToken_ne_empty v₂ hf)]
      exact (parse_seq_minp_step v₂ (buildCommandLine rest) acc hlv hf).trans ha

theorem sequenceArgs_tail_ok (od : Option String) (so : Bool) (minp cf : Option String)
    (hod : StrValueOk od) (hminp : FloatValueOk minp) (hcf : StrValueOk cf) :
    ∀ kv ∈ (optArg "output-dir" od ++ (if so then [("stable-only", "")] else [])
        ++ optNumArg "min-pnear" minp ++ optArg "config" cf), SequenceOptPair kv := by
  intro kv hkv
  rcases List.mem_append.mp hkv with h3 | hcf'
  · rcases List.mem_append.mp h3 with h2 | hminp'
    · rcases List.mem_append.mp h2 with hod' | hflag
      · exact Or.inl (optArg_mem_ok "output-dir" od hod kv hod')
      · rcases so with _ | _
        · cases hflag
        · rw [if_pos rfl, List.mem_singleton] at hflag
          rw [hflag]
          exact Or.inr (Or.inr (Or.inl ⟨rfl, rfl⟩))
    · exact Or.inr (Or.inr (Or.inr
        (optNumArg_mem_float "min-pnear" minp hminp kv hminp')))
  · exact Or.inr (Or.inl (optArg_mem_ok "config" cf hcf kv hcf'))

theorem sequence_cli_accepts_args (input : String) (od : Option String) (so : Bool)
    (minp cf : Option String) (hin1 : input ≠ "")
    (hin2 : looksLikeOption input = false) (hod : StrValueOk od)
    (hminp : FloatValueOk minp) (hcf : StrValueOk cf) :
    sequenceCliAccepts
      (buildCommandLine (server.sequenceArgs input od so minp cf)) = true := by
  have h1 : buildCommandLine (server.sequenceArgs input od so minp cf)
      = "--input" :: input :: buildCommandLine
          (optArg "output-dir" od ++ (if so then [("stable-only", "")] else [])
            ++ optNumArg "min-pnear" minp ++ optArg "config" cf) := by
    show buildCommandLine (("input", input)
      :: (optArg "output-dir" od ++ (if so then [("stable-only", "")] else [])
        ++ optNumArg "min-pnear" minp ++ optArg "config" cf)) = _
    rw [buildCommandLine_cons]
    rw [if_neg hin1]
    rfl
  unfold sequenceCliAccepts
  rw [h1]
  rw [parse_seq_input_step input _ {} hin2]
  obtain ⟨acc', ha, hs⟩ := parse_seq_opt_tail _
    (sequenceArgs_tail_ok od so minp cf hod hminp hcf)
    { ({} : SequenceCli) with input := some input }
  rw [ha]
  show acc'.input.isSome = true
  rw [hs]
  rfl

/-- C8 (amended): the command line derived from an arguments mapping carries,
for each key `k` with non-empty value `v`, the flag `--k` immediately
followed by `v`, and for each key with an empty value the bare flag `--k`;
and the mappings built by `submit_backbone_parameter_generation`,
`submit_pnear_analysis` and `submit_sequence_analysis` (e.g.
`{"size": 15, "optimize": ""}`) yield command lines their target scripts'
argument parsers accept, provided the caller-supplied string values are
usable as `argparse` values — non-empty and not option-like — and `min_pnear`
is a rendered float. -/
theorem command_line_from_arguments :
    (∀ (args : List (String × String)) (k v : String), (k, v) ∈ args → v ≠ "" →
      ∃ l r, buildCommandLine args = l ++ ["--" ++ k, v] ++ r) ∧
    (∀ (args : List (String × String)) (k : String), (k, "") ∈ args →
      ∃ l r, buildCommandLine args = l ++ ["--" ++ k] ++ r) ∧
    (∀ size : Int, size ∈ server.valid_sizes →
      ∀ (od : Option String) (opt : Bool) (nc : Option Int) (cf : Option String),
        StrValueOk od → StrValueOk cf →
        backboneCliAccepts
          (buildCommandLine (server.backboneArgs size od opt nc cf)) = true) ∧
    (∀ (input : String) (od minp cf : Option String),
      input ≠ "" → looksLikeOption input = false →
      StrValueOk od → FloatValueOk minp → StrValueOk cf →
      pnearCliAccepts (buildCommandLine (server.pnearArgs input od minp cf)) = true) ∧
    (∀ (input : String) (od : Option String) (so : Bool) (minp cf : Option String),
      input ≠ "" → looksLikeOption input = false →
      StrValueOk od → FloatValueOk minp → StrValueOk cf →
      sequenceCliAccepts
        (buildCommandLine (server.sequenceArgs input od so minp cf)) = true) :=
  ⟨buildCommandLine_mem_value, buildCommandLine_mem_flag,
    fun size hmem od opt nc cf hod hcf =>
      backbone_cli_accepts_args size hmem od opt nc cf hod hcf,
    fun input od minp cf hin1 hin2 hod hminp hcf =>
      pnear_cli_accepts_args input od minp cf hin1 hin2 hod hminp hcf,
    fun input od so minp cf hin1 hin2 hod hminp hcf =>
      sequence_cli_accepts_args input od so minp cf hin1 hin2 hod hminp hcf⟩

/-- C8 counterexample: the claim promises acceptance for every mapping the
submit tools build, but for `output_dir = "-x"`
`submit_backbone_parameter_generation` builds `{"size": 15,
"output-dir": "-x"}`, whose derived command line `--size 15 --output-dir -x`
the backbone parser refuses — `argparse` classifies `-x` as an option and
exits with "expected one argument". -/
theorem command_line_option_value_counterexample :
    backboneCliAccepts
      (buildCommandLine (server.backboneArgs 15 (some "-x") false none none))
      = false := by
  have h1 : buildCommandLine (server.backboneArgs 15 (some "-x") false none none)
      = "--size" :: intStr 15 :: "--output-dir" :: "-x" :: [] := by
    show buildCommandLine (("size", intStr 15) :: [("output-dir", "-x")]) = _
    rw [buildCommandLine_cons]
    rw [if_neg (intStr_ne_empty 15)]
    rfl
  unfold backboneCliAccepts
  rw [h1]
  rw [parse_size_step (intStr 15) _ {} 15 (looksLikeOption_intStr 15)
    (parseIntStr_intStr 15) (by decide)]
  rw [parse_output_dir_step_bad "-x" [] _ (by decide)]

/-- C8 witness: the example mapping `{"size": 15, "optimize": ""}` carries
`--size 15` and the bare `--optimize`; concrete well-formed mappings of all
three submit tools are accepted by their parsers. -/
theorem command_line_from_arguments_witness :
    (∃ l r, buildCommandLine (server.backboneArgs 15 none true none none)
      = l ++ ["--" ++ "size", intStr 15] ++ r) ∧
    (∃ l r, buildCommandLine (server.backboneArgs 15 none true none none)
      = l ++ ["--" ++ "optimize"] ++ r) ∧
    backboneCliAccepts
      (buildCommandLine (server.backboneArgs 15 (some "out") true (some 20) none))
      = true ∧
    pnearCliAccepts
      (buildCommandLine (server.pnearArgs "a.txt" (some "out") (some "0.9") none))
      = true ∧
    sequenceCliAccepts
      (buildCommandLine (server.sequenceArgs "a.txt" none true (some "0.9") none))
      = true := by
  have hout : StrValueOk (some "out") := by
    intro x hx
    cases hx
    decide
  have hnone : StrValueOk none := fun x hx => Option.noConfusion hx
  have hf09 : FloatValueOk (some "0.9") := by
    intro x hx
    cases hx
    exact ⟨by decide, by decide⟩
  refine ⟨command_line_from_arguments.1 _ "size" (intStr 15) ?_ ?_,
    command_line_from_arguments.2.1 _ "optimize" ?_,
    command_line_from_arguments.2.2.1 15 ?_ (some "out") true (some 20) none hout hnone,
    command_line_from_arguments.2.2.2.1 "a.txt" (some "out") (some "0.9") none
      (by decide) (by decide) hout hf09 hnone,
    command_line_from_arguments.2.2.2.2 "a.txt" none true (some "0.9") none
      (by decide) (by decide) hnone hf09 hnone⟩
  · exact List.mem_cons_self _ _
  · exact intStr_ne_empty 15
  · exact List.mem_cons_of_mem _ (List.mem_cons_self _ _)
  · decide

/-- C9: a peptide size outside {7, 15, 20, 24} makes
`submit_backbone_parameter_generation` return a structured error containing
"Invalid peptide size" with the manager unchanged (no job record created),
makes `generate_backbone_parameters` return the same structured error without
invoking the computation, and makes `submit_peptide_size_parameter_sweep`
reject the whole request with no job submitted when any listed size is
invalid. -/
theorem invalid_peptide_size_rejected (ps : Int) (hps : ps ∉ server.valid_sizes) :
    (∀ (m : JobManager) (invocable : List String) (clock : Nat)
      (od : Option String) (opt : Bool) (nc : Option Int) (cf name : Option String),
      server.submit_backbone_parameter_generation m invocable clock ps od opt nc cf name
        = (.error (server.invalidSizeMsg ps), m)) ∧
    (∀ run, server.generate_backbone_parameters run ps
      = .error (server.invalidSizeMsg ps)) ∧
    (∀ run run', server.generate_backbone_parameters run ps
      = server.generate_backbone_parameters run' ps) ∧
    (∃ suffix, server.invalidSizeMsg ps = "Invalid peptide size" ++ suffix) ∧
    (∀ (m : JobManager) (invocable : List String) (clock : Nat) (sizes : List Int)
      (od : Option String) (opt : Bool) (nc : Option Int) (cf name : Option String),
      ps ∈ sizes →
      server.submit_peptide_size_parameter_sweep m invocable clock (some sizes) od opt
          nc cf name
        = (.error (server.invalidSweepMsg
            (sizes.filter (fun s => !(decide (s ∈ server.valid_sizes))))), m)) := by
  refine ⟨?_, ?_, ?_, invalidSizeMsg_prefix ps, ?_⟩
  · intro m invocable clock od opt nc cf name
    unfold server.submit_backbone_parameter_generation
    rw [if_neg hps]
  · intro run
    unfold server.generate_backbone_parameters
    rw [if_neg hps]
  · intro run run'
    unfold server.generate_backbone_parameters
    simp only [if_neg hps]
  · intro m invocable clock sizes od opt nc cf name hmem
    have hinvalid : ps ∈ sizes.filter (fun s => !(decide (s ∈ server.valid_sizes))) :=
      List.mem_filter.mpr ⟨hmem, by simp [hps]⟩
    have hne : sizes.filter (fun s => !(decide (s ∈ server.valid_sizes))) ≠ [] :=
      List.ne_nil_of_mem hinvalid
    simp only [server.submit_peptide_size_parameter_sweep, Option.getD_some]
    rw [if_pos hne]

/-- C9 witness: size 99 is rejected by the submit tool and the sweep with the
structured error and an unchanged registry. -/
theorem invalid_peptide_size_rejected_witness :
    server.submit_backbone_parameter_generation demoManager [backboneScriptPath] 0 99
        none false none none none = (.error (server.invalidSizeMsg 99), demoManager) ∧
    server.submit_peptide_size_parameter_sweep demoManager [backboneScriptPath] 0
        (some [15, 99]) none true none none none
      = (.error (server.invalidSweepMsg
          (([15, 99] : List Int).filter
            (fun s => !(decide (s ∈ server.valid_sizes))))), demoManager) :=
  ⟨(invalid_peptide_size_rejected 99 (by decide)).1 demoManager [backboneScriptPath]
      0 none false none none none,
    (invalid_peptide_size_rejected 99 (by decide)).2.2.2.2 demoManager
      [backboneScriptPath] 0 [15, 99] none true none none none (by decide)⟩

/-! The batch submission loop. -/

theorem batchStep_ok (invocable : List String) (clock : Nat)
    (obase minp cf name : Option String) (h : pnearScriptPath ∈ invocable)
    (acc : List Nat) (m : JobManager) (p : Nat × String) :
    ∃ m₁, server.batchStep invocable clock obase minp cf name (acc, m) p
      = (acc ++ [m.counter], m₁) ∧ m₁.counter = m.counter + 1 := by
  simp only [server.batchStep, server.submit_pnear_analysis, JobManager.submit_job]
  rw [if_pos h]
  exact ⟨_, rfl, rfl⟩

theorem batchStep_fail (invocable : List String) (clock : Nat)
    (obase minp cf name : Option String) (h : pnearScriptPath ∉ invocable)
    (acc : List Nat) (m : JobManager) (p : Nat × String) :
    server.batchStep invocable clock obase minp cf name (acc, m) p = (acc, m) := by
  simp only [server.batchStep, server.submit_pnear_analysis, JobManager.submit_job]
  rw [if_neg h]

theorem batch_fold_ok (invocable : List String) (clock : Nat)
    (obase minp cf name : Option String) (h : pnearScriptPath ∈ invocable) :
    ∀ (files : List String) (k : Nat) (acc : List Nat) (m : JobManager),
      ∃ m', List.foldl (server.batchStep invocable clock obase minp cf name) (acc, m)
          (files.enumFrom k)
        = (acc ++ List.range' m.counter files.length, m')
        ∧ m'.counter = m.counter + files.length := by
  intro files
  induction files with
  | nil =>
    intro k acc m
    exact ⟨m, by simp, rfl⟩
  | cons f fs ih =>
    intro k acc m
    obtain ⟨m₁, hstep, hc₁⟩ :=
      batchStep_ok invocable clock obase minp cf name h acc m (k, f)
    obtain ⟨m', hfold, hc'⟩ := ih (k + 1) (acc ++ [m.counter]) m₁
    refine ⟨m', ?_, ?_⟩
    · show List.foldl _
        (server.batchStep invocable clock obase minp cf name (acc, m) (k, f))
        (fs.enumFrom (k + 1)) = _
      rw [hstep, hfold, hc₁, List.length_cons, List.range'_succ m.counter fs.length 1]
      simp [List.append_assoc]
    · rw [hc', hc₁, List.length_cons]
      omega

theorem batch_fold_fail (invocable : List String) (clock : Nat)
    (obase minp cf name : Option String) (h : pnearScriptPath ∉ invocable) :
    ∀ (files : List String) (k : Nat) (acc : List Nat) (m : JobManager),
      List.foldl (server.batchStep invocable clock obase minp cf name) (acc, m)
        (files.enumFrom k) = (acc, m) := by
  intro files
  induction files with
  | nil => intro k acc m; rfl
  | cons f fs ih =>
    intro k acc m
    show List.foldl _
      (server.batchStep invocable clock obase minp cf name (acc, m) (k, f))
      (fs.enumFrom (k + 1)) = _
    rw [batchStep_fail invocable clock obase minp cf name h acc m (k, f)]
    exact ih (k + 1) acc m

/-- C10: `submit_batch_pnear_analysis` always returns the `batch_submitted`
dictionary, its `total_jobs` equal to the length of `job_ids`; when the
analysis script is invocable, `job_ids` holds exactly the consecutive ids of
the per-file submissions; when every per-file submission fails, and likewise
for an empty `input_files` list, it still reports `batch_submitted` with zero
jobs and an empty id list — never an error status. -/
theorem batch_pnear_always_batch_submitted (m : JobManager) (invocable : List String)
    (clock : Nat) (input_files : List String) (obase minp cf name : Option String) :
    (server.submit_batch_pnear_analysis m invocable clock input_files obase minp cf
      name).1.status = "batch_submitted" ∧
    (server.submit_batch_pnear_analysis m invocable clock input_files obase minp cf
      name).1.total_jobs
      = (server.submit_batch_pnear_analysis m invocable clock input_files obase minp cf
        name).1.job_ids.length ∧
    (pnearScriptPath ∈ invocable →
      (server.submit_batch_pnear_analysis m invocable clock input_files obase minp cf
        name).1.job_ids = List.range' m.counter input_files.length ∧
      (server.submit_batch_pnear_analysis m invocable clock input_files obase minp cf
        name).1.total_jobs = input_files.length) ∧
    (pnearScriptPath ∉ invocable →
      (server.submit_batch_pnear_analysis m invocable clock input_files obase minp cf
        name).1.job_ids = [] ∧
      (server.submit_batch_pnear_analysis m invocable clock input_files obase minp cf
        name).1.total_jobs = 0 ∧
      (server.submit_batch_pnear_analysis m invocable clock input_files obase minp cf
        name).2 = m) ∧
    (input_files = [] →
      (server.submit_batch_pnear_analysis m invocable clock input_files obase minp cf
        name).1.job_ids = [] ∧
      (server.submit_batch_pnear_analysis m invocable clock input_files obase minp cf
        name).1.total_jobs = 0) := by
  have henum : input_files.enum = input_files.enumFrom 0 := rfl
  refine ⟨rfl, rfl, ?_, ?_, ?_⟩
  · intro h
    obtain ⟨m', hfold, _⟩ :=
      batch_fold_ok invocable clock obase minp cf name h input_files 0 [] m
    constructor
    · show (List.foldl (server.batchStep invocable clock obase minp cf name) ([], m)
        input_files.enum).1 = _
      rw [henum, hfold]
      simp
    · show (List.foldl (server.batchStep invocable clock obase minp cf name) ([], m)
        input_files.enum).1.length = _
      rw [henum, hfold]
      simp
  · intro h
    have hfold := batch_fold_fail invocable clock obase minp cf name h input_files 0 [] m
    refine ⟨?_, ?_, ?_⟩
    · show (List.foldl (server.batchStep invocable clock obase minp cf name) ([], m)
        input_files.enum).1 = _
      rw [henum, hfold]
    · show (List.foldl (server.batchStep invocable clock obase minp cf name) ([], m)
        input_files.enum).1.length = _
      rw [henum, hfold]
      rfl
    · show (List.foldl (server.batchStep invocable clock obase minp cf name) ([], m)
        input_files.enum).2 = _
      rw [henum, hfold]
  · intro h
    subst h
    exact ⟨rfl, rfl⟩

/-- C10 witness: a two-file batch over the demo registry with the analysis
script invocable yields the two consecutive fresh ids. -/
theorem batch_pnear_always_batch_submitted_witness :
    (server.submit_batch_pnear_analysis demoManager [pnearScriptPath] 2
        ["a.txt", "b.txt"] none none none none).1.job_ids
      = List.range' demoManager.counter (["a.txt", "b.txt"] : List String).length ∧
    (server.submit_batch_pnear_analysis demoManager [pnearScriptPath] 2
        ["a.txt", "b.txt"] none none none none).1.total_jobs
      = (["a.txt", "b.txt"] : List String).length :=
  (batch_pnear_always_batch_submitted demoManager [pnearScriptPath] 2
    ["a.txt", "b.txt"] none none none none).2.2.1 (by decide)

end CyclicChamp
